import Mathlib

/-!
Verification development for the Ceph cluster refresh command
(`src/webapp/calamari/ceph/management/commands/ceph_refresh.py`).

The Python source is shallowly embedded: the raw JSON-shaped telemetry
documents become Lean structures, the Django-backed tables (Server,
ServiceStatus, Pool) become lists inside an explicit database state, and
every network interaction (telemetry fetch, reverse DNS, monitor probe)
is an oracle supplied through an environment record.  A telemetry fetch
result is an `Except Err` value; since `CephRestClient._query` memoizes
per pass, one fixed outcome per endpoint per pass is the faithful model.
Exceptions that the Python code can raise are mirrored with `Except`,
carrying the mutated state at the raise point where that matters.
-/

namespace CephRefresh

/-- Failure kinds visible to `Command.handle`: `transport` stands for
`requests.exceptions.RequestException` (the only kind for which the
`cluster_update_error_isclient` flag is set, line 673), `malformed` for a
`ValueError` out of `r.json()`, `other` for everything else
(e.g. `KeyError`, `ValueError` from `int(...)`). -/
inductive Err where
  | transport
  | malformed
  | other
deriving DecidableEq, Repr

/-! ## Python string primitives

Character-level, structurally recursive models of the Python string
operations the source uses (`str.split`, `str.lower`, `str.startswith`,
slicing, `int`), so that every embedded definition evaluates inside the
kernel.  Python strings are sequences of code points, i.e. `List Char`. -/

/-- Does `s` start with the character sequence `p`? -/
def starts_with_seq : List Char → List Char → Bool
  | [], _ => true
  | _ :: _, [] => false
  | p :: ps, c :: cs => p == c && starts_with_seq ps cs

/-- Worker for `py_split`: scan for the next separator occurrence,
accumulating the current field in reverse.  Structural recursion on a
fuel argument (every step consumes at least one input character, so
`input.length + 1` fuel never runs out) keeps the definition
kernel-reducible. -/
def split_fuel (sep : List Char) : Nat → List Char → List Char → List (List Char)
  | 0, rest, acc => [acc.reverse ++ rest]
  | _ + 1, [], acc => [acc.reverse]
  | fuel + 1, c :: cs, acc =>
    if starts_with_seq sep (c :: cs) && !sep.isEmpty then
      acc.reverse :: split_fuel sep fuel (cs.drop (sep.length - 1)) []
    else
      split_fuel sep fuel cs (c :: acc)

/-- Python `s.split(sep)` for a non-empty separator: always returns at
least one element; adjacent separators yield empty fields. -/
def py_split (s : String) (sep : String) : List String :=
  (split_fuel sep.toList (s.toList.length + 1) s.toList []).map (fun l => String.mk l)

/-- Python `s.lower()`; the source only lower-cases ASCII state
labels. -/
def py_lower (s : String) : String :=
  String.mk (s.toList.map Char.toLower)

/-- Python `s[n:]` (by code point). -/
def py_drop (s : String) (n : Nat) : String :=
  String.mk (s.toList.drop n)

/-- Python `s.startswith(p)`. -/
def py_starts_with (s : String) (p : String) : Bool :=
  starts_with_seq p.toList s.toList

/-- Python `int(s)` restricted to the non-empty all-digit strings the
source feeds it (pgid pool parts); anything else is a `ValueError`,
reported as `none`. -/
def py_int (s : String) : Option Nat :=
  let cs := s.toList
  if cs.isEmpty || !cs.all Char.isDigit then none
  else some (cs.foldl (fun n c => n * 10 + (c.toNat - 48)) 0)

/-! ## Address normalization (`_short_addr`, lines 315-327) -/

/-- `ModelAdapter._short_addr` (lines 315-327): for a bracketed IPv6
address take the part before `]:` and drop the leading `[`; otherwise
take the part before the first `:`. -/
def short_addr (addr : String) : String :=
  if py_starts_with addr "[" then
    py_drop ((py_split addr "]:").headD "") 1
  else
    (py_split addr ":").headD ""

/-- The address actually used to key Server records: both call sites
(line 414 for OSDs, line 424 for monitors) first apply
`.split(":")[0]` to the raw address and only then `_short_addr`. -/
def caller_short_addr (raw : String) : String :=
  short_addr ((py_split raw ":").headD "")

/-! ## Raw telemetry documents (shapes consumed by `ModelAdapter`) -/

/-- One entry of `ceph osd dump`'s `osds` list; the fields read by the
source (`OSD_FIELDS`, lines 109-110, plus `osd`). `up`/`in` are 0/1
flags in the raw JSON; they are modelled as `Bool`. -/
structure OsdEntry where
  osd : Nat
  uuid : String
  up : Bool
  inn : Bool
  up_from : Nat
  public_addr : String
  cluster_addr : String
  heartbeat_back_addr : String
  heartbeat_front_addr : String
deriving DecidableEq, Repr

/-- One entry of the `pools` list of `ceph osd dump` (fields read at
lines 162, 172-174). -/
structure OsdMapPool where
  pool : Nat
  pool_name : String
  quota_max_bytes : Nat
  quota_max_objects : Nat
deriving DecidableEq, Repr

/-- The `stats` block of one pool in `ceph df` (lines 175-176). -/
structure DfStats where
  bytes_used : Nat
  objects : Nat
deriving DecidableEq, Repr

/-- One entry of `ceph df`'s `pools` list (lines 165-167). -/
structure DfPool where
  id : Nat
  stats : DfStats
deriving DecidableEq, Repr

/-- The `stats` block of `ceph df` (lines 132-137), in KiB. -/
structure SpaceStats where
  total_used : Nat
  total_space : Nat
  total_avail : Nat
deriving DecidableEq, Repr

/-- `ceph df` output: space stats plus per-pool df statistics. -/
structure SpaceDoc where
  stats : SpaceStats
  pools : List DfPool
deriving DecidableEq, Repr

/-- `ceph health detail` output (fields copied at lines 142-146);
the three payloads are pass-through, modelled as opaque strings. -/
structure HealthDoc where
  overall_status : String
  detail : String
  summary : String
deriving DecidableEq, Repr

/-- One monitor of a monmap (fields read at lines 424-428, 520, 557). -/
structure MonEntry where
  rank : Nat
  name : String
  addr : String
deriving DecidableEq, Repr

/-- The `mdsmap` block of `ceph status` (lines 493-496). -/
structure MdsMap where
  max : Nat
  up : Nat
  inn : Nat
deriving DecidableEq, Repr

/-- One entry of `pgmap.pgs_by_state` in `ceph status` (lines 591-593). -/
structure PgStateCount where
  state_name : String
  count : Nat
deriving DecidableEq, Repr

/-- The parts of `ceph status` read by the source: `mdsmap` (line 493),
`monmap.mons` and `quorum` (lines 553-554), `pgmap.pgs_by_state`
(lines 589-591). -/
structure StatusDoc where
  mdsmap : MdsMap
  mons : List MonEntry
  quorum : List Nat
  pgs_by_state : List PgStateCount
deriving DecidableEq, Repr

/-- One entry of the brief pg dump (`PG_FIELDS`, line 112). -/
structure PgEntry where
  pgid : String
  acting : List Nat
  up : List Nat
  state : String
deriving DecidableEq, Repr

/-- One entry of `ceph osd lspools` (line 206). -/
structure PoolLs where
  poolnum : Nat
  poolname : String
deriving DecidableEq, Repr

/-- One pool of `pg/dump?dumpcontents=pools`: only its `stat_sum`
dict is read (lines 444-446), modelled as an association list. -/
structure PgPoolEntry where
  stat_sum : List (String × Int)
deriving DecidableEq, Repr

/-- One node of `ceph osd tree` (fields read at lines 262, 270, 282-287). -/
structure CrushNode where
  id : Int
  name : String
  type : String
  children : List Int
deriving DecidableEq, Repr

/-- `ceph osd tree` output. -/
structure OsdTree where
  nodes : List CrushNode
deriving DecidableEq, Repr

/-! ## PG classifier (`_pg_counter_helper` / `_calculate_pg_counters`,
lines 579-613) -/

/-- `ModelAdapter.CRIT_STATES` (line 103). -/
def CRIT_STATES : List String :=
  ["stale", "down", "peering", "inconsistent", "incomplete"]

/-- `ModelAdapter.WARN_STATES` (lines 104-106). -/
def WARN_STATES : List String :=
  ["creating", "recovery_wait", "recovering", "replay", "splitting",
   "degraded", "remapped", "scrubbing", "repair", "wait_backfill",
   "backfilling", "backfill_toofull"]

/-- `ModelAdapter.OKAY_STATES` (line 107). -/
def OKAY_STATES : List String :=
  ["active", "clean"]

/-- One `[count, defaultdict(int)]` pair of `_calculate_pg_counters`
(line 590); the per-label sub-counts are a total function defaulting
to 0, mirroring `defaultdict(int)`. -/
structure PgBucket where
  count : Nat
  states : String → Nat

/-- The initial `[0, defaultdict(int)]` bucket. -/
def PgBucket.empty : PgBucket := ⟨0, fun _ => 0⟩

/-- `ModelAdapter._pg_counter_helper` (lines 579-586): intersect the
PG's labels with the classifier set; on a non-empty intersection add
the count to the bucket and to each matched label, and report `true`. -/
def pg_counter_helper (states : List String) (classifier : List String)
    (count : Nat) (stats : PgBucket) : PgBucket × Bool :=
  let matched_states := classifier.filter (fun s => states.contains s)
  if matched_states.length > 0 then
    ({ count := stats.count + count,
       states := matched_states.foldl
         (fun m state => fun l => if l = state then m l + count else m l)
         stats.states },
     true)
  else
    (stats, false)

/-- The lower-cased `+`-split label list of one `pgs_by_state` entry
(line 593). -/
def pg_labels (e : PgStateCount) : List String :=
  (py_split e.state_name "+").map (fun s => py_lower s)

/-- One iteration of the loop of `_calculate_pg_counters`
(lines 591-599): critical first, then warn, then ok. -/
def pg_counter_step (acc : PgBucket × PgBucket × PgBucket)
    (pg_state : PgStateCount) : PgBucket × PgBucket × PgBucket :=
  let ok := acc.1
  let warn := acc.2.1
  let crit := acc.2.2
  let count := pg_state.count
  let states := pg_labels pg_state
  match pg_counter_helper states CRIT_STATES count crit with
  | (crit', true) => (ok, warn, crit')
  | (_, false) =>
    match pg_counter_helper states WARN_STATES count warn with
    | (warn', true) => (ok, warn', crit)
    | (_, false) =>
      match pg_counter_helper states OKAY_STATES count ok with
      | (ok', true) => (ok', warn, crit)
      | (_, false) => (ok, warn, crit)

/-- The three-tier result shape `{ok, warn, critical}` with
function-valued per-label sub-counts. -/
structure PgTri where
  ok : PgBucket
  warn : PgBucket
  critical : PgBucket

/-- `ModelAdapter._calculate_pg_counters` (lines 588-613) given the
`pgs_by_state` list of `ceph status`. -/
def calculate_pg_counters (pgs_by_state : List PgStateCount) : PgTri :=
  let acc := pgs_by_state.foldl pg_counter_step
    (PgBucket.empty, PgBucket.empty, PgBucket.empty)
  ⟨acc.1, acc.2.1, acc.2.2⟩

/-! ## OSD classifier (`_calculate_osd_counters`, lines 452-490) -/

/-- The `counters` dict of `_calculate_osd_counters` without its
`total` entry (lines 454-460). -/
structure OsdCounts where
  not_up_not_in : Nat
  not_up_in : Nat
  up_not_in : Nat
  up_in : Nat
deriving DecidableEq, Repr

/-- One iteration of the loop at lines 461-470. -/
def osd_count_step (c : OsdCounts) (osd : OsdEntry) : OsdCounts :=
  if !osd.up && !osd.inn then { c with not_up_not_in := c.not_up_not_in + 1 }
  else if !osd.up && osd.inn then { c with not_up_in := c.not_up_in + 1 }
  else if osd.up && !osd.inn then { c with up_not_in := c.up_not_in + 1 }
  else if osd.up && osd.inn then { c with up_in := c.up_in + 1 }
  else c

/-- A severity bucket whose `states` dict is built literally
(as at lines 477-490), modelled as an association list. -/
structure CBucket where
  count : Nat
  states : List (String × Nat)
deriving DecidableEq, Repr

/-- The `{ok, warn, critical}` shape returned by the OSD and MON
classifiers. -/
structure CTri where
  ok : CBucket
  warn : CBucket
  critical : CBucket
deriving DecidableEq, Repr

/-- `ModelAdapter._calculate_osd_counters` (lines 452-490). -/
def calculate_osd_counters (osds : List OsdEntry) : CTri :=
  let counters := osds.foldl osd_count_step ⟨0, 0, 0, 0⟩
  let warn_count := counters.up_not_in + counters.not_up_in
  let warn_states : List (String × Nat) :=
    (if counters.up_not_in > 0 then [("up/out", counters.up_not_in)] else []) ++
    (if counters.not_up_in > 0 then [("down/in", counters.not_up_in)] else [])
  { ok :=
      { count := counters.up_in,
        states := if counters.up_in = 0 then [] else [("up/in", counters.up_in)] },
    warn :=
      { count := warn_count,
        states := if warn_count = 0 then [] else warn_states },
    critical :=
      { count := counters.not_up_not_in,
        states := if counters.not_up_not_in = 0 then []
                  else [("down/out", counters.not_up_not_in)] } }

/-! ## Pool populate (`_populate_pools`, lines 148-181) -/

/-- A row of the durable `Pool` table (per cluster). -/
structure PoolRecord where
  pool_id : Nat
  name : String
  quota_max_bytes : Nat
  quota_max_objects : Nat
  used_bytes : Nat
  used_objects : Nat
deriving DecidableEq, Repr

/-- The `attrs` dict of `_populate_pools` (lines 171-177).  Note that
line 174 fills `quota_max_objects` from `pool['quota_max_bytes']`. -/
def pool_attrs (pool : OsdMapPool) (stats : DfStats) (pool_id : Nat) : PoolRecord :=
  { pool_id := pool_id,
    name := pool.pool_name,
    quota_max_bytes := pool.quota_max_bytes,
    quota_max_objects := pool.quota_max_bytes,
    used_bytes := stats.bytes_used,
    used_objects := stats.objects }

/-- The `stats` lookup loop at lines 164-167: scans all df pools and
keeps the last match. -/
def df_stats_for (df_pools : List DfPool) (pool_id : Nat) : Option DfStats :=
  df_pools.foldl
    (fun acc ps => if ps.id = pool_id then some ps.stats else acc) none

/-- `ModelAdapter._populate_pools` acting on the Pool table
(lines 148-181): delete rows absent from the OSD map, then for each
OSD-map pool with df statistics update-or-create its row; pools with
no df statistics are skipped. -/
def populate_pools_table (osd_map_pools : List OsdMapPool)
    (df_pools : List DfPool) (table : List PoolRecord) : List PoolRecord :=
  let alive := table.filter
    (fun r => osd_map_pools.any (fun p => p.pool = r.pool_id))
  osd_map_pools.foldl
    (fun tbl pool =>
      match df_stats_for df_pools pool.pool with
      | none => tbl
      | some stats =>
        let attrs := pool_attrs pool stats pool.pool
        if tbl.any (fun r => r.pool_id = pool.pool) then
          tbl.map (fun r => if r.pool_id = pool.pool then attrs else r)
        else
          tbl ++ [attrs])
    alive

/-! ## Monitor quorum probe (`try_mon_connect`, lines 505-549) -/

/-- `_MON_ADDR_IGNORES` (line 17). -/
def MON_ADDR_IGNORES : List String := ["0.0.0.0", "0:0:0:0:0:0:0:0", "::"]

/-- Python exceptions that can arise inside the `try` block of
`try_mon_connect`: `m.group(...)` on `None` raises `AttributeError`
(line 529), `socket.create_connection` raises a socket/timeout error
(line 536). -/
inductive PyExc where
  | attributeError
  | socketError
deriving DecidableEq, Repr

/-- A maximal non-empty run of decimal digits (`\d+`), returning the
digits and the rest; `none` when the input does not start with a
digit. -/
def digits1 (cs : List Char) : Option (List Char × Nat × List Char) :=
  let p := cs.span Char.isDigit
  if p.1.isEmpty then none
  else some (p.1, p.1.foldl (fun n c => n * 10 + (c.toNat - 48)) 0, p.2)

/-- A single literal character. -/
def lit (c : Char) : List Char → Option (List Char)
  | x :: xs => if x = c then some xs else none
  | [] => none

/-- `re.match` of `_IPV4_RE = r"(?P<addr>\d+\.\d+\.\d+\.\d+):(?P<port>\d+)\/"`
(line 507): an anchored prefix match returning the `addr` and `port`
groups.  Each `\d+` is followed by a non-digit literal, so greedy
matching is deterministic here. -/
def ipv4_match (s : String) : Option (String × Nat) := do
  let cs := s.toList
  let (d1, _, r) ← digits1 cs
  let r ← lit '.' r
  let (d2, _, r) ← digits1 r
  let r ← lit '.' r
  let (d3, _, r) ← digits1 r
  let r ← lit '.' r
  let (d4, _, r) ← digits1 r
  let r ← lit ':' r
  let (_, port, r) ← digits1 r
  let _ ← lit '/' r
  pure (String.mk (d1 ++ '.' :: d2 ++ '.' :: d3 ++ '.' :: d4), port)

/-- Greedy backtracking for `\S+\]:\d+\/`: prefer extending the `\S+`
group by one more non-whitespace character; on failure close the group
here (it must be non-empty) and match `]:`, the port digits and `/`. -/
def ipv6_bt (acc : List Char) : List Char → Option (String × Nat)
  | [] => none
  | c :: rest =>
    (if c.isWhitespace then none else ipv6_bt (acc ++ [c]) rest) <|>
    (if acc.isEmpty then none
     else do
       let r ← lit ']' (c :: rest)
       let r ← lit ':' r
       let (_, port, r) ← digits1 r
       let _ ← lit '/' r
       pure (String.mk acc, port))

/-- `re.match` of `_IPV6_RE = r"\[(?P<addr>\S+)\]:(?P<port>\d+)\/"`
(line 508). -/
def ipv6_match (s : String) : Option (String × Nat) :=
  match s.toList with
  | '[' :: rest => ipv6_bt [] rest
  | _ => none

/-- The network oracle for the probe: whether a TCP connection to
(host, port) succeeds, and whether closing the resulting socket
raises.  The probe's timeout only influences the oracle's outcome, so
it is absorbed into `connect`. -/
structure NetEnv where
  connect : String → Nat → Bool
  close_fails : String → Nat → Bool

/-- What one call of `try_mon_connect` did: the value (or exception)
that escapes to the caller, how many connection attempts were made,
and whether a close failure was swallowed. -/
structure ProbeRun where
  result : Except PyExc Bool
  attempts : Nat
  close_failed : Bool
deriving Repr

/-- Address parsing at lines 521-523: try the IPv4 pattern first, then
the IPv6 pattern. -/
def mon_parse (mon_addr : String) : Option (String × Nat) :=
  (ipv4_match mon_addr).orElse (fun _ => ipv6_match mon_addr)

/-- The `except Exception` handler at lines 538-539: any exception from
the `try` block becomes `return False`. -/
def py_catch (r : Except PyExc Bool) : Except PyExc Bool :=
  match r with
  | .error _ => .ok false
  | .ok b => .ok b

/-- `ModelAdapter.try_mon_connect` (lines 510-549).  The branches
produce the raw outcome of the `try` block and `py_catch` applies the
catch-all handler; the `finally` block closes the socket only when
`create_connection` succeeded, and its inner `try/except` swallows any
close failure (lines 540-549), so a close failure never alters the
returned value. -/
def try_mon_connect (net : NetEnv) (mon_addr : String) : ProbeRun :=
  match mon_parse mon_addr with
  | none =>
    { result := py_catch (.error .attributeError), attempts := 0, close_failed := false }
  | some (addr, port) =>
    if addr ∈ MON_ADDR_IGNORES then
      { result := py_catch (.ok false), attempts := 0, close_failed := false }
    else if net.connect addr port then
      { result := py_catch (.ok true), attempts := 1,
        close_failed := net.close_fails addr port }
    else
      { result := py_catch (.error .socketError), attempts := 1, close_failed := false }

/-- The boolean the rest of the program sees (an uncaught exception is
impossible; `false` is a defensive default for the `.error` case). -/
def try_mon_connect_bool (net : NetEnv) (mon_addr : String) : Bool :=
  match (try_mon_connect net mon_addr).result with
  | .ok b => b
  | .error _ => false

/-! ## MON / MDS / pool counters (lines 438-450, 492-502, 551-577) -/

/-- One iteration of the loop of `_calculate_mon_counters`
(lines 556-563). -/
def mon_count_step (net : NetEnv) (quorum : List Nat)
    (acc : Nat × Nat × Nat) (mon : MonEntry) : Nat × Nat × Nat :=
  if quorum.contains mon.rank then (acc.1 + 1, acc.2.1, acc.2.2)
  else if try_mon_connect_bool net mon.addr then (acc.1, acc.2.1 + 1, acc.2.2)
  else (acc.1, acc.2.1, acc.2.2 + 1)

/-- `ModelAdapter._calculate_mon_counters` (lines 551-577). -/
def calculate_mon_counters (net : NetEnv) (status : StatusDoc) : CTri :=
  let acc := status.mons.foldl (mon_count_step net status.quorum) (0, 0, 0)
  let ok := acc.1
  let warn := acc.2.1
  let crit := acc.2.2
  { ok := { count := ok, states := if ok = 0 then [] else [("in", ok)] },
    warn := { count := warn, states := if warn = 0 then [] else [("up", warn)] },
    critical := { count := crit, states := if crit = 0 then [] else [("out", crit)] } }

/-- The result of `_calculate_mds_counters` (lines 492-502); Python
subtraction, so `Int`. -/
structure MdsCounters where
  total : Int
  up_in : Int
  up_not_in : Int
  not_up_not_in : Int
deriving DecidableEq, Repr

/-- `ModelAdapter._calculate_mds_counters` (lines 492-502). -/
def calculate_mds_counters (mdsmap : MdsMap) : MdsCounters :=
  { total := mdsmap.max,
    up_in := mdsmap.inn,
    up_not_in := (mdsmap.up : Int) - (mdsmap.inn : Int),
    not_up_not_in := (mdsmap.max : Int) - (mdsmap.up : Int) }

/-- The field list of `_calculate_pool_counters` (lines 439-441). -/
def POOL_COUNTER_FIELDS : List String :=
  ["num_objects_unfound", "num_objects_missing_on_primary",
   "num_deep_scrub_errors", "num_shallow_scrub_errors",
   "num_scrub_errors", "num_objects_degraded"]

/-- `counts[key] += v` on a `defaultdict(lambda: 0)`, modelled on an
association list. -/
def assoc_add (m : List (String × Int)) (k : String) (v : Int) : List (String × Int) :=
  if m.any (fun p => p.1 = k) then
    m.map (fun p => if p.1 = k then (p.1, p.2 + v) else p)
  else
    m ++ [(k, v)]

/-- `ModelAdapter._calculate_pool_counters` (lines 438-450): clamp
each `stat_sum` value into {<=0, 1} via `min(value, 1)`, sum per key,
drop keys outside the fixed field list, then record the pool total. -/
def calculate_pool_counters (pools : List PgPoolEntry) : List (String × Int) :=
  let counts := pools.foldl
    (fun acc pool =>
      pool.stat_sum.foldl (fun a kv => assoc_add a kv.1 (min kv.2 1)) acc)
    []
  let counts := counts.filter (fun p => p.1 ∈ POOL_COUNTER_FIELDS)
  counts ++ [("total", (pools.length : Int))]

/-! ## Service registry (`_register_service` / `_refresh_servers`,
lines 329-436) -/

/-- `ServiceStatus.OSD` / `ServiceStatus.MON`. -/
inductive SKind where
  | osd
  | mon
deriving DecidableEq, Repr

/-- A row of the durable `ServiceStatus` table.  The owning server is
referenced through its (per-cluster unique) address; `id` is the
database primary key used by the stale sweep. -/
structure SS where
  id : Nat
  server_addr : String
  type : SKind
  service_id : Nat
  name : String
deriving DecidableEq, Repr

/-- A row of the durable `Server` table for one cluster. -/
structure ServerR where
  addr : String
  hostname : Option String
  name : Option String
deriving DecidableEq, Repr

/-- The durable registry state for one cluster; `next_id` models the
primary-key sequence for `ServiceStatus`. -/
structure RegDB where
  servers : List ServerR
  services : List SS
  next_id : Nat
deriving DecidableEq, Repr

/-- Name-resolution collaborators of `_register_service`: the CRUSH
osd-to-host map (behind `Except` because the underlying
`get_osd_tree` fetch happens lazily on first use, lines 258-289, and
can raise) and reverse DNS (`_reverse_dns`, lines 291-313, which never
raises). -/
structure ResolveEnv where
  crush : Except Err (String → Option String)
  rdns : String → Option String

/-- What one `_register_service` call produced: the new database
state, the returned ServiceStatus row, the two `get_or_create` flags,
the number of rows removed by the migration cleanup, and the in-memory
server object (which line 388 may decorate without saving). -/
structure RegOut where
  db : RegDB
  ss : SS
  created : Bool
  server_created : Bool
  mig_deletes : Nat
  server_view : ServerR
deriving DecidableEq, Repr

/-- `Server.objects.get_or_create(cluster=..., addr=...)` lookup. -/
def find_server (db : RegDB) (addr : String) : Option ServerR :=
  db.servers.find? (fun s => s.addr == addr)

/-- `ServiceStatus.objects.get_or_create(server=..., type=..., service_id=...)`
lookup. -/
def find_ss (db : RegDB) (addr : String) (t : SKind) (sid : Nat) : Option SS :=
  db.services.find?
    (fun r => r.server_addr == addr && r.type == t && r.service_id == sid)

/-- `server.save()`: write the in-memory server object back to its row
(rows are keyed by address). -/
def update_server (db : RegDB) (s : ServerR) : RegDB :=
  { db with servers := db.servers.map (fun t => if t.addr = s.addr then s else t) }

/-- The predicate of the migration cleanup at lines 348-353:
`~Q(server=server), server__cluster=cluster, type=ServiceStatus.OSD,
service_id=service_id`.  The kind is fixed to OSD in the source. -/
def stale_pred (service_addr : String) (service_id : Nat) (r : SS) : Bool :=
  r.server_addr != service_addr && r.type == SKind.osd && r.service_id == service_id

/-- `Server.objects.get_or_create(cluster=self.cluster, addr=service_addr)`
(line 335): the found or freshly inserted server row and the created
flag. -/
def server_goc (db : RegDB) (addr : String) : RegDB × ServerR × Bool :=
  match find_server db addr with
  | some s => (db, s, false)
  | none =>
    let s : ServerR := ⟨addr, none, none⟩
    ({ db with servers := db.servers ++ [s] }, s, true)

/-- The hostname-guessing block of `_register_service` (lines 355-389),
run only when the ServiceStatus was newly created: on the OSD path try
CRUSH (a lazy fetch that can raise), fall back to reverse DNS, then to
the literal `localhost`; on the MON path try reverse DNS, else use the
monitor's own name as the display name.  Every branch saves the server
row. -/
def resolve_server (env : ResolveEnv) (db : RegDB) (service_addr : String)
    (service_type : SKind) (name : String) (server : ServerR) :
    Except (Err × RegDB) (RegDB × ServerR) :=
  if server.hostname = none then
    match service_type with
    | .osd =>
      match env.crush with
      | .error e => .error (e, db)
      | .ok crush_map =>
        let hn := crush_map name
        if hn = none ∨ hn = some "localhost" then
          let hostname := (env.rdns service_addr).getD "localhost"
          let server' : ServerR :=
            { server with hostname := some hostname, name := some hostname }
          .ok (update_server db server', server')
        else
          let server' : ServerR := { server with hostname := hn, name := hn }
          .ok (update_server db server', server')
    | .mon =>
      match env.rdns service_addr with
      | some h =>
        let server' : ServerR := { server with hostname := some h, name := some h }
        .ok (update_server db server', server')
      | none =>
        let server' : ServerR := { server with name := some name }
        .ok (update_server db server', server')
  else
    .ok (db, server)

/-- `ModelAdapter._register_service` (lines 329-397).  On the created
path the unconditional `service_status.name = name; save()` of lines
342-343 is collapsed into the creation.  The CRUSH lookup can raise
(lazy osd-tree fetch), in which case the exception escapes with the
database as mutated so far. -/
def register_service (env : ResolveEnv) (db0 : RegDB) (service_addr : String)
    (service_type : SKind) (service_id : Nat) (name : String) :
    Except (Err × RegDB) RegOut :=
  let pre := server_goc db0 service_addr
  let db1 := pre.1
  let server := pre.2.1
  let server_created := pre.2.2
  match find_ss db1 service_addr service_type service_id with
  | some r =>
    .ok { db := db1, ss := r, created := false, server_created := server_created,
          mig_deletes := 0, server_view := server }
  | none =>
    let ss : SS := ⟨db1.next_id, service_addr, service_type, service_id, name⟩
    let db2 := { db1 with services := db1.services ++ [ss], next_id := db1.next_id + 1 }
    let mig := (db2.services.filter (stale_pred service_addr service_id)).length
    let db3 := { db2 with
      services := db2.services.filter (fun r => !stale_pred service_addr service_id r) }
    match resolve_server env db3 service_addr service_type name server with
    | .error e => .error e
    | .ok (db4, server') =>
      let server_view :=
        if server'.name = none then { server' with name := some service_addr } else server'
      .ok { db := db4, ss := ss, created := true, server_created := server_created,
            mig_deletes := mig, server_view := server_view }

/-- One observed service as fed to `_register_service` by the two
loops of `_refresh_servers` (lines 413-430). -/
structure Obs where
  raw : String
  kind : SKind
  sid : Nat
  name : String
deriving DecidableEq, Repr

/-- Line 413-419: an OSD observation. -/
def obs_of_osd (o : OsdEntry) : Obs :=
  ⟨o.public_addr, .osd, o.osd, "osd." ++ toString o.osd⟩

/-- Line 423-428: a monitor observation. -/
def obs_of_mon (m : MonEntry) : Obs :=
  ⟨m.addr, .mon, m.rank, "mon." ++ m.name⟩

/-- The registry key under which an observation is get-or-created. -/
def Obs.addr (ob : Obs) : String := caller_short_addr ob.raw

/-- The key triple of a ServiceStatus row. -/
def SS.key (r : SS) : String × SKind × Nat := (r.server_addr, r.type, r.service_id)

/-- The key triple an observation resolves to. -/
def Obs.key (ob : Obs) : String × SKind × Nat := (ob.addr, ob.kind, ob.sid)

/-- Database well-formedness, guaranteed by the Django schema: the
(server, type, service_id) key is unique among ServiceStatus rows,
primary keys are distinct and below the sequence counter, and one
cluster has at most one Server row per address. -/
def RegDB.WF (db : RegDB) : Prop :=
  (∀ r1 ∈ db.services, ∀ r2 ∈ db.services, SS.key r1 = SS.key r2 → r1 = r2) ∧
  (db.services.map (fun r => r.id)).Nodup ∧
  (∀ r ∈ db.services, r.id < db.next_id) ∧
  (db.servers.map (fun s => s.addr)).Nodup

/-- Creation/deletion counts of one reconcile pass. -/
structure RecStats where
  server_creates : Nat
  ss_creates : Nat
  mig_deletes : Nat
  sweep_ss_deletes : Nat
  sweep_server_deletes : Nat
deriving DecidableEq, Repr

/-- The loop state of `_refresh_servers`: the database, the two
shrinking candidate-deletion sets (lines 408-411), the
`_osd_name_to_server` mapping, and running statistics. -/
structure FoldAcc where
  db : RegDB
  old_ids : List Nat
  old_addrs : List String
  osd_map : String → Option ServerR
  stats : RecStats

/-- One loop iteration of `_refresh_servers` (lines 413-421 / 423-430):
register the service, then discard its id and address from the
deletion candidates; `_register_service` stashes the in-memory server
under the OSD name for OSD-kind services (lines 391-395). -/
def reg_step (env : ResolveEnv) (acc : FoldAcc) (ob : Obs) :
    Except (Err × RegDB) FoldAcc :=
  match register_service env acc.db ob.addr ob.kind ob.sid ob.name with
  | .error e => .error e
  | .ok out => .ok
    { db := out.db,
      old_ids := acc.old_ids.erase out.ss.id,
      old_addrs := acc.old_addrs.erase ob.addr,
      osd_map :=
        if ob.kind = SKind.osd then
          (fun n => if n = ob.name then some out.server_view else acc.osd_map n)
        else acc.osd_map,
      stats := { acc.stats with
        server_creates := acc.stats.server_creates + (if out.server_created then 1 else 0),
        ss_creates := acc.stats.ss_creates + (if out.created then 1 else 0),
        mig_deletes := acc.stats.mig_deletes + out.mig_deletes } }

/-- The two registration loops, as one fold over the concatenated
observation list. -/
def reg_fold (env : ResolveEnv) : List Obs → FoldAcc → Except (Err × RegDB) FoldAcc
  | [], acc => .ok acc
  | ob :: rest, acc =>
    match reg_step env acc ob with
    | .error e => .error e
    | .ok acc2 => reg_fold env rest acc2

/-- The result of one `_refresh_servers` pass. -/
structure RecOut where
  db : RegDB
  osd_map : String → Option ServerR
  stats : RecStats

/-- The stale sweep at lines 432-436: delete every leftover candidate
ServiceStatus id, then every leftover candidate Server address; the
Django foreign key cascades a server deletion onto its remaining
ServiceStatus rows. -/
def sweep (acc : FoldAcc) : RecOut :=
  let db := acc.db
  let s1 := db.services.filter (fun r => !acc.old_ids.contains r.id)
  let servers2 := db.servers.filter (fun s => !acc.old_addrs.contains s.addr)
  let s2 := s1.filter (fun r => !acc.old_addrs.contains r.server_addr)
  { db := { servers := servers2, services := s2, next_id := db.next_id },
    osd_map := acc.osd_map,
    stats := { acc.stats with
      sweep_ss_deletes := acc.stats.sweep_ss_deletes
        + (db.services.length - s1.length) + (s1.length - s2.length),
      sweep_server_deletes := acc.stats.sweep_server_deletes
        + (db.servers.length - servers2.length) } }

/-- `ModelAdapter._refresh_servers` (lines 401-436) after its two
telemetry fetches: snapshot the candidate-deletion sets, register
every observed OSD then every observed monitor, then sweep. -/
def reconcile (env : ResolveEnv) (osds : List OsdEntry) (mons : List MonEntry)
    (db0 : RegDB) : Except (Err × RegDB) RecOut :=
  let old_ids := db0.services.map (fun r => r.id)
  let old_addrs := db0.servers.map (fun s => s.addr)
  let obs := osds.map obs_of_osd ++ mons.map obs_of_mon
  match reg_fold env obs ⟨db0, old_ids, old_addrs, fun _ => none, ⟨0, 0, 0, 0, 0⟩⟩ with
  | .error e => .error e
  | .ok acc => .ok (sweep acc)

/-! ## CRUSH topology resolver (`crush_osd_hostnames`, lines 258-289) -/

/-- Child-id resolution inside `find_descendants`: `nodes_by_id[child_id]`
raises `KeyError` when the id is missing (modelled as `Err.other`). -/
def resolve_children (m : Int → Option CrushNode) : List Int → Except Err (List CrushNode)
  | [] => .ok []
  | cid :: rest =>
    match m cid with
    | none => .error .other
    | some n => (resolve_children m rest).map (fun l => n :: l)

/-- `find_descendants` (lines 265-272) as a fuelled depth-first
worklist: a target node is collected without descending further,
otherwise its children are expanded in order.  The Python recursion
has no cycle guard; malformed (cyclic) topology input is undefined
upstream (spec section 7c), and exhausting the fuel — impossible for
the acyclic trees the source assumes — is reported as an error. -/
def find_descendants (m : Int → Option CrushNode) (isTarget : CrushNode → Bool) :
    Nat → List CrushNode → Except Err (List CrushNode)
  | _, [] => .ok []
  | 0, _ :: _ => .error .other
  | fuel + 1, cursor :: rest =>
    if isTarget cursor then
      (find_descendants m isTarget fuel rest).map (fun l => cursor :: l)
    else
      match resolve_children m cursor.children with
      | .error e => .error e
      | .ok kids => find_descendants m isTarget fuel (kids ++ rest)

/-- `dict[k] = v` on a string association list (later assignments
overwrite). -/
def assoc_set (m : List (String × String)) (k v : String) : List (String × String) :=
  if m.any (fun p => p.1 = k) then
    m.map (fun p => if p.1 = k then (p.1, v) else p)
  else
    m ++ [(k, v)]

/-- The `crush_osd_hostnames` property (lines 258-289): index the tree
nodes by id (a Python dict comprehension, so a duplicated id keeps the
last node), then for every host-typed node other than `localhost`
record each descendant OSD's hostname.  Lookups default to `None`
(`defaultdict(lambda: None)`). -/
def crush_osd_hostnames (host_type osd_type : String) (tree : OsdTree) :
    Except Err (String → Option String) := do
  let nodes_by_id := fun (i : Int) => (tree.nodes.reverse).find? (fun n => n.id == i)
  let fuel := (tree.nodes.length + 1) * (tree.nodes.length + 1)
  let m ← tree.nodes.foldlM
    (fun acc node =>
      if node.type = host_type then
        if node.name = "localhost" then pure acc
        else do
          let osds ← find_descendants nodes_by_id (fun c => c.type == osd_type) fuel [node]
          pure (osds.foldl (fun a o => assoc_set a o.name node.name) acc)
      else pure acc)
    ([] : List (String × String))
  pure (fun n => (m.find? (fun p => p.1 == n)).map (fun p => p.2))

/-! ## One refresh pass (`ModelAdapter.refresh` / `Command.handle`) -/

/-- `ceph osd dump` output: the `osds` and `pools` lists. -/
structure OsdDump where
  osds : List OsdEntry
  pools : List OsdMapPool
deriving DecidableEq, Repr

/-- The telemetry and network oracles for one pass over one cluster.
`CephRestClient._query` memoizes per pass, so each endpoint has one
fixed outcome; `crush_host_type`/`crush_osd_type` are the
`calamari.settings` values `CRUSH_HOST_TYPE`/`CRUSH_OSD_TYPE`. -/
structure TelemetryEnv where
  status : Except Err StatusDoc
  space : Except Err SpaceDoc
  health : Except Err HealthDoc
  osd_dump : Except Err OsdDump
  mon_status : Except Err (List MonEntry)
  pg_pools : Except Err (List PgPoolEntry)
  pools_ls : Except Err (List PoolLs)
  pg_stats : Except Err (List PgEntry)
  osd_tree : Except Err OsdTree
  crush_host_type : String
  crush_osd_type : String
  net : NetEnv
  rdns : String → Option String

/-- The cluster `space` snapshot field (lines 133-137), in bytes. -/
structure Space where
  used_bytes : Nat
  capacity_bytes : Nat
  free_bytes : Nat
deriving DecidableEq, Repr

/-- One element of `cluster.pgs` after `fixup_pg` (lines 195-198). -/
structure PgOut where
  pgid : String
  acting : List Nat
  up : List Nat
  state : List String
deriving DecidableEq, Repr

/-- One element of `cluster.osds` after `fixup_osd` (lines 228-243). -/
structure OsdOut where
  uuid : String
  up : Bool
  inn : Bool
  up_from : Nat
  public_addr : String
  cluster_addr : String
  heartbeat_back_addr : String
  heartbeat_front_addr : String
  id : Nat
  pg_states : String → Nat
  pg_count : Nat
  pools : List String
  host : String

/-- `cluster.counters` (lines 250-256). -/
structure Counters where
  pool : List (String × Int)
  osd : CTri
  mds : MdsCounters
  mon : CTri
  pg : PgTri

/-- The persistent state of one cluster: the registry and pool tables,
the snapshot fields (all `Option`: `none` = never populated), and the
refresh bookkeeping fields of `Command.handle`. -/
structure ClusterState where
  reg : RegDB
  pools : List PoolRecord
  space : Option Space
  health : Option HealthDoc
  osds : Option (List OsdOut)
  pgs : Option (List PgOut)
  osds_by_pg_state : Option (String → List Nat)
  counters : Option Counters
  update_time : Option Nat
  attempt_time : Option Nat
  error_isclient : Bool
  error_msg : Option String

/-- The CRUSH map as `_register_service` sees it: building it performs
the (memoized) `get_osd_tree` fetch. -/
def crush_of (env : TelemetryEnv) : Except Err (String → Option String) :=
  match env.osd_tree with
  | .error e => .error e
  | .ok t => crush_osd_hostnames env.crush_host_type env.crush_osd_type t

/-- `ModelAdapter._refresh_servers` (lines 401-436) as a pipeline step:
fetch the monitor map and the OSD map, then reconcile.  An exception
escapes with the database as mutated so far. -/
def refresh_servers_step (env : TelemetryEnv) (c : ClusterState) :
    Except (Err × ClusterState) (ClusterState × (String → Option ServerR)) :=
  match env.mon_status with
  | .error e => .error (e, c)
  | .ok mons =>
    match env.osd_dump with
    | .error e => .error (e, c)
    | .ok dump =>
      match reconcile ⟨crush_of env, env.rdns⟩ dump.osds mons c.reg with
      | .error (e, reg2) => .error (e, { c with reg := reg2 })
      | .ok out => .ok ({ c with reg := out.db }, out.osd_map)

/-- `_populate_space` (lines 130-137). -/
def populate_space (env : TelemetryEnv) (c : ClusterState) :
    Except (Err × ClusterState) ClusterState :=
  match env.space with
  | .error e => .error (e, c)
  | .ok d =>
    let sp : Space :=
      { used_bytes := d.stats.total_used * 1024,
        capacity_bytes := d.stats.total_space * 1024,
        free_bytes := d.stats.total_avail * 1024 }
    .ok { c with space := some sp }

/-- `_populate_health` (lines 139-146): a pass-through of the three
health payloads. -/
def populate_health (env : TelemetryEnv) (c : ClusterState) :
    Except (Err × ClusterState) ClusterState :=
  match env.health with
  | .error e => .error (e, c)
  | .ok d => .ok { c with health := some d }

/-- `_populate_pools` (lines 148-181) as a pipeline step: fetch the OSD
map (line 152) and the df statistics (line 153), then rewrite the Pool
table. -/
def populate_pools (env : TelemetryEnv) (c : ClusterState) :
    Except (Err × ClusterState) ClusterState :=
  match env.osd_dump with
  | .error e => .error (e, c)
  | .ok dump =>
    match env.space with
    | .error e => .error (e, c)
    | .ok sp => .ok { c with pools := populate_pools_table dump.pools sp.pools c.pools }

/-- `_populate_counters` (lines 249-256); the dict literal evaluates
its five values in source order (pool, osd, mds, mon, pg), so the
fetch order is pg-pools, osd-dump, status. -/
def populate_counters (env : TelemetryEnv) (c : ClusterState) :
    Except (Err × ClusterState) ClusterState :=
  match env.pg_pools with
  | .error e => .error (e, c)
  | .ok pp =>
    match env.osd_dump with
    | .error e => .error (e, c)
    | .ok dump =>
      match env.status with
      | .error e => .error (e, c)
      | .ok st =>
        let cs : Counters :=
          { pool := calculate_pool_counters pp,
            osd := calculate_osd_counters dump.osds,
            mds := calculate_mds_counters st.mdsmap,
            mon := calculate_mon_counters env.net st,
            pg := calculate_pg_counters st.pgs_by_state }
        .ok { c with counters := some cs }

/-- `fixup_pg` (lines 195-198). -/
def fixup_pg (pg : PgEntry) : PgOut :=
  ⟨pg.pgid, pg.acting, pg.up, py_split pg.state "+"⟩

/-- `pools_by_id = dict((d['poolnum'], d['poolname']) for d in pools)`
(line 206); a Python dict comprehension keeps the last duplicate. -/
def pools_by_id_of (pools : List PoolLs) : Nat → Option String :=
  fun i => (pools.reverse.find? (fun d => d.poolnum == i)).map (fun d => d.poolname)

/-- `if l.contains x then l else l ++ [x]`: set insertion on an
insertion-ordered duplicate-free list (Python set iteration order is
abstracted to insertion order). -/
def insert_new (l : List Nat) (x : Nat) : List Nat :=
  if l.contains x then l else l ++ [x]

/-- Set insertion for pool-name sets. -/
def insert_new_str (l : List String) (x : String) : List String :=
  if l.contains x then l else l ++ [x]

/-- `s |= acting` on an osd-id set. -/
def union_list (l : List Nat) (xs : List Nat) : List Nat :=
  xs.foldl insert_new l

/-- The four indices built by the loop at lines 186-220. -/
structure PgIndices where
  pg_states_by_osd : Nat → String → Nat
  pg_counts_by_osd : Nat → Nat
  pools_by_osd : Nat → List String
  osds_by_pg_state : String → List Nat

/-- The empty indices (`defaultdict`s of lines 187-192). -/
def PgIndices.empty : PgIndices :=
  ⟨fun _ _ => 0, fun _ => 0, fun _ => [], fun _ => []⟩

/-- The body of the loop at lines 209-220 for one PG:
`int(pg['pgid'].split(".")[0])` raises `ValueError` on a non-numeric
pool part; `acting = set(pg['acting'])` de-duplicates; the inner state
loop runs once per state-label occurrence. -/
def pg_index_step (pools_by_id : Nat → Option String) (idx : PgIndices)
    (pg : PgOut) : Except Err PgIndices :=
  match py_int ((py_split pg.pgid ".").headD "") with
  | none => .error .other
  | some pool_id =>
    let acting := pg.acting.dedup
    let idx1 := { idx with
      pg_counts_by_osd := fun i =>
        if acting.contains i then idx.pg_counts_by_osd i + 1 else idx.pg_counts_by_osd i }
    .ok (pg.state.foldl
      (fun idx state =>
        { pg_states_by_osd := fun i =>
            if acting.contains i then
              (fun s => if s = state then idx.pg_states_by_osd i s + 1
                        else idx.pg_states_by_osd i s)
            else idx.pg_states_by_osd i,
          pg_counts_by_osd := idx.pg_counts_by_osd,
          pools_by_osd :=
            match pools_by_id pool_id with
            | some pname => fun i =>
                if acting.contains i then insert_new_str (idx.pools_by_osd i) pname
                else idx.pools_by_osd i
            | none => idx.pools_by_osd,
          osds_by_pg_state := fun s =>
            if s = state then union_list (idx.osds_by_pg_state s) acting
            else idx.osds_by_pg_state s })
      idx1)

/-- The whole index-building loop (lines 209-220). -/
def build_pg_indices (pools_by_id : Nat → Option String) (pgs : List PgOut) :
    Except Err PgIndices :=
  pgs.foldlM (pg_index_step pools_by_id) PgIndices.empty

/-- `fixup_osd` (lines 228-243): the `_osd_name_to_server` lookup
raises `KeyError` when the OSD was never registered (impossible when
the same memoized OSD dump fed `_refresh_servers`); `if
server.hostname:` is a Python truthiness test, so an empty hostname
also falls back to the address. -/
def fixup_osd (osd_map : String → Option ServerR) (idx : PgIndices)
    (osd : OsdEntry) : Except Err OsdOut :=
  match osd_map ("osd." ++ toString osd.osd) with
  | none => .error .other
  | some server =>
    let host :=
      match server.hostname with
      | some h => if h = "" then server.addr else h
      | none => server.addr
    .ok { uuid := osd.uuid, up := osd.up, inn := osd.inn, up_from := osd.up_from,
          public_addr := osd.public_addr, cluster_addr := osd.cluster_addr,
          heartbeat_back_addr := osd.heartbeat_back_addr,
          heartbeat_front_addr := osd.heartbeat_front_addr,
          id := osd.osd,
          pg_states := idx.pg_states_by_osd osd.osd,
          pg_count := idx.pg_counts_by_osd osd.osd,
          pools := idx.pools_by_osd osd.osd,
          host := host }

/-- `_populate_osds_and_pgs` (lines 183-247), with its three
assignments (`cluster.pgs` line 202, `cluster.osds_by_pg_state` line
225, `cluster.osds` line 247) applied in source order so that a
failure in between leaves the earlier assignments in place. -/
def populate_osds_and_pgs (env : TelemetryEnv) (osd_map : String → Option ServerR)
    (c : ClusterState) : Except (Err × ClusterState) ClusterState :=
  match env.pg_stats with
  | .error e => .error (e, c)
  | .ok raw_pgs =>
    let pgs_out := raw_pgs.map fixup_pg
    let c1 := { c with pgs := some pgs_out }
    match env.pools_ls with
    | .error e => .error (e, c1)
    | .ok pools =>
      match build_pg_indices (pools_by_id_of pools) pgs_out with
      | .error e => .error (e, c1)
      | .ok idx =>
        let c2 := { c1 with osds_by_pg_state := some idx.osds_by_pg_state }
        match env.osd_dump with
        | .error e => .error (e, c2)
        | .ok dump =>
          match dump.osds.mapM (fixup_osd osd_map idx) with
          | .error e => .error (e, c2)
          | .ok osds_out => .ok { c2 with osds := some osds_out }

/-- `ModelAdapter.refresh` (lines 121-128): `_refresh_servers` first,
then every `_populate_*` method in the alphabetical order produced by
`dir(self)` — counters, health, osds_and_pgs, pools, space.  The
returned state is what `cluster.save()` persists. -/
def refresh_impl (env : TelemetryEnv) (c : ClusterState) :
    Except (Err × ClusterState) ClusterState :=
  match refresh_servers_step env c with
  | .error e => .error e
  | .ok (c1, osd_map) =>
    match populate_counters env c1 with
    | .error e => .error e
    | .ok c2 =>
      match populate_health env c2 with
      | .error e => .error e
      | .ok c3 =>
        match populate_osds_and_pgs env osd_map c3 with
        | .error e => .error e
        | .ok c4 =>
          match populate_pools env c4 with
          | .error e => .error e
          | .ok c5 => populate_space env c5

/-- Modelled from the spec: the section 4.7 pipeline order — registry
reconciliation, then space (step 2), health, pools, OSDs+PGs, counters
(step 6) — composed from the same embedded steps, for comparison with
`refresh_impl`. -/
def refresh_spec_order (env : TelemetryEnv) (c : ClusterState) :
    Except (Err × ClusterState) ClusterState :=
  match refresh_servers_step env c with
  | .error e => .error e
  | .ok (c1, osd_map) =>
    match populate_space env c1 with
    | .error e => .error e
    | .ok c2 =>
      match populate_health env c2 with
      | .error e => .error e
      | .ok c3 =>
        match populate_pools env c3 with
        | .error e => .error e
        | .ok c4 =>
          match populate_osds_and_pgs env osd_map c4 with
          | .error e => .error e
          | .ok c5 => populate_counters env c5

/-- The per-cluster body of `Command.handle` (lines 658-689): reset the
error fields, run the refresh; on success record the success time, on
any exception record the client-origin flag (exactly for transport
errors, line 673) and the traceback; always record the attempt time
and save the in-memory cluster object — including whatever snapshot
fields the aborted pass already assigned.  The final save (line 685)
is modelled as succeeding. -/
def process_cluster (env : TelemetryEnv) (now : Nat) (c0 : ClusterState) : ClusterState :=
  let c := { c0 with error_isclient := false, error_msg := none }
  match refresh_impl env c with
  | .ok s => { s with update_time := some now, attempt_time := some now }
  | .error (e, s) =>
    { s with error_isclient := (e = Err.transport),
             error_msg := some "traceback",
             attempt_time := some now }

/-- `Command.handle` (lines 652-690): each registered cluster is
processed independently in one loop iteration; one cluster's failure
cannot affect another's processing. -/
def handle (inputs : List (TelemetryEnv × ClusterState)) (now : Nat) : List ClusterState :=
  inputs.map (fun p => process_cluster p.1 now p.2)

deriving instance DecidableEq for Except

/-! # Lemmas and claim theorems -/

theorem foldl_add_states (c : Nat) :
    ∀ (matched : List String) (m : String → Nat), matched.Nodup →
      matched.foldl (fun m state => fun l => if l = state then m l + c else m l) m
        = fun l => if l ∈ matched then m l + c else m l := by
  intro matched
  induction matched with
  | nil => intro m _; funext l; simp
  | cons a t ih =>
    intro m hnd
    rw [List.foldl_cons, ih _ (List.nodup_cons.mp hnd).2]
    funext l
    by_cases hla : l = a
    · subst hla
      simp [(List.nodup_cons.mp hnd).1]
    · by_cases hlt : l ∈ t <;> simp [hla, hlt]

theorem pg_counter_helper_pos (states classifier : List String)
    (count : Nat) (stats : PgBucket) (hnd : classifier.Nodup)
    (h : ∃ l, l ∈ classifier ∧ l ∈ states) :
    pg_counter_helper states classifier count stats =
      ({ count := stats.count + count,
         states := fun l => if l ∈ classifier ∧ l ∈ states then stats.states l + count
                            else stats.states l }, true) := by
  obtain ⟨l0, hc, hs⟩ := h
  have hmem : l0 ∈ classifier.filter (fun s => states.contains s) :=
    List.mem_filter.mpr ⟨hc, by simpa using hs⟩
  have hlen : 0 < (classifier.filter (fun s => states.contains s)).length :=
    List.length_pos.mpr (List.ne_nil_of_mem hmem)
  simp only [pg_counter_helper, hlen, if_pos, gt_iff_lt]
  rw [foldl_add_states _ _ _ (hnd.filter _)]
  refine Prod.ext ?_ rfl
  show PgBucket.mk _ _ = PgBucket.mk _ _
  congr 1
  funext l
  by_cases hl : l ∈ classifier ∧ l ∈ states
  · rw [if_pos, if_pos hl]
    exact List.mem_filter.mpr ⟨hl.1, by simpa using hl.2⟩
  · rw [if_neg, if_neg hl]
    intro hmm
    exact hl ⟨(List.mem_filter.mp hmm).1, by simpa using (List.mem_filter.mp hmm).2⟩

theorem pg_counter_helper_neg (states classifier : List String)
    (count : Nat) (stats : PgBucket)
    (h : ∀ l ∈ classifier, l ∉ states) :
    pg_counter_helper states classifier count stats = (stats, false) := by
  have hnil : classifier.filter (fun s => states.contains s) = [] := by
    rw [List.filter_eq_nil_iff]
    intro a ha
    simpa using h a ha
  simp only [pg_counter_helper, hnil, List.length_nil, gt_iff_lt, Nat.lt_irrefl,
    if_false, reduceIte]

theorem crit_nodup : CRIT_STATES.Nodup := by decide

theorem warn_nodup : WARN_STATES.Nodup := by decide

theorem okay_nodup : OKAY_STATES.Nodup := by decide

/-- C3.  For every PG state string (a `+`-joined combination of labels,
lower-cased and split), if any label belongs to the critical set, the
classifier adds the PG's count to the critical bucket and to each
matching critical label's sub-count and touches neither the warn nor the
ok bucket; with no critical label the warn set is tried the same way,
and then the ok set. -/
theorem C3_pg_critical_precedence (acc : PgBucket × PgBucket × PgBucket) (e : PgStateCount) :
    ((∃ l, l ∈ pg_labels e ∧ l ∈ CRIT_STATES) →
      pg_counter_step acc e =
        (acc.1, acc.2.1,
          { count := acc.2.2.count + e.count,
            states := fun l => if l ∈ CRIT_STATES ∧ l ∈ pg_labels e
                               then acc.2.2.states l + e.count else acc.2.2.states l })) ∧
    ((∀ l ∈ pg_labels e, l ∉ CRIT_STATES) →
     (∃ l, l ∈ pg_labels e ∧ l ∈ WARN_STATES) →
      pg_counter_step acc e =
        (acc.1,
         { count := acc.2.1.count + e.count,
           states := fun l => if l ∈ WARN_STATES ∧ l ∈ pg_labels e
                              then acc.2.1.states l + e.count else acc.2.1.states l },
         acc.2.2)) ∧
    ((∀ l ∈ pg_labels e, l ∉ CRIT_STATES) →
     (∀ l ∈ pg_labels e, l ∉ WARN_STATES) →
     (∃ l, l ∈ pg_labels e ∧ l ∈ OKAY_STATES) →
      pg_counter_step acc e =
        ({ count := acc.1.count + e.count,
           states := fun l => if l ∈ OKAY_STATES ∧ l ∈ pg_labels e
                              then acc.1.states l + e.count else acc.1.states l },
         acc.2.1, acc.2.2)) := by
  refine ⟨?_, ?_, ?_⟩
  · rintro ⟨l, hl, hc⟩
    simp only [pg_counter_step]
    rw [pg_counter_helper_pos _ _ _ _ crit_nodup ⟨l, hc, hl⟩]
  · intro hnc hw
    obtain ⟨l, hl, hwl⟩ := hw
    simp only [pg_counter_step]
    rw [pg_counter_helper_neg _ _ _ _ (fun a ha hla => hnc _ hla ha)]
    rw [pg_counter_helper_pos _ _ _ _ warn_nodup ⟨l, hwl, hl⟩]
  · intro hnc hnw hok
    obtain ⟨l, hl, hol⟩ := hok
    simp only [pg_counter_step]
    rw [pg_counter_helper_neg _ _ _ _ (fun a ha hla => hnc _ hla ha)]
    rw [pg_counter_helper_neg _ _ _ _ (fun a ha hla => hnw _ hla ha)]
    rw [pg_counter_helper_pos _ _ _ _ okay_nodup ⟨l, hol, hl⟩]

/-- Witness for C3 at a concrete mixed state string: `Active+DOWN+scrubbing`
contains the critical label `down`, so the whole count lands in the
critical bucket. -/
theorem C3_pg_critical_precedence_witness :
    pg_counter_step (PgBucket.empty, PgBucket.empty, PgBucket.empty)
        ⟨"Active+DOWN+scrubbing", 7⟩ =
      (PgBucket.empty, PgBucket.empty,
        { count := PgBucket.empty.count + 7,
          states := fun l =>
            if l ∈ CRIT_STATES ∧ l ∈ pg_labels ⟨"Active+DOWN+scrubbing", 7⟩
            then PgBucket.empty.states l + 7 else PgBucket.empty.states l }) :=
  (C3_pg_critical_precedence (PgBucket.empty, PgBucket.empty, PgBucket.empty)
      ⟨"Active+DOWN+scrubbing", 7⟩).1 ⟨"down", by decide, by decide⟩

theorem osd_step_fields (c : OsdCounts) (o : OsdEntry) :
    (osd_count_step c o).up_in = c.up_in + (if o.up && o.inn then 1 else 0) ∧
    (osd_count_step c o).up_not_in = c.up_not_in + (if o.up && !o.inn then 1 else 0) ∧
    (osd_count_step c o).not_up_in = c.not_up_in + (if !o.up && o.inn then 1 else 0) ∧
    (osd_count_step c o).not_up_not_in
        = c.not_up_not_in + (if !o.up && !o.inn then 1 else 0) := by
  cases hu : o.up <;> cases hi : o.inn <;> simp [osd_count_step, hu, hi]

theorem osd_fold_up_in : ∀ (osds : List OsdEntry) (c : OsdCounts),
    (osds.foldl osd_count_step c).up_in
      = c.up_in + osds.countP (fun o => o.up && o.inn)
  | [], c => by simp
  | o :: t, c => by
    simp only [List.foldl_cons, List.countP_cons]
    rw [osd_fold_up_in t, (osd_step_fields c o).1]
    omega

theorem osd_fold_up_not_in : ∀ (osds : List OsdEntry) (c : OsdCounts),
    (osds.foldl osd_count_step c).up_not_in
      = c.up_not_in + osds.countP (fun o => o.up && !o.inn)
  | [], c => by simp
  | o :: t, c => by
    simp only [List.foldl_cons, List.countP_cons]
    rw [osd_fold_up_not_in t, (osd_step_fields c o).2.1]
    omega

theorem osd_fold_not_up_in : ∀ (osds : List OsdEntry) (c : OsdCounts),
    (osds.foldl osd_count_step c).not_up_in
      = c.not_up_in + osds.countP (fun o => !o.up && o.inn)
  | [], c => by simp
  | o :: t, c => by
    simp only [List.foldl_cons, List.countP_cons]
    rw [osd_fold_not_up_in t, (osd_step_fields c o).2.2.1]
    omega

theorem osd_fold_not_up_not_in : ∀ (osds : List OsdEntry) (c : OsdCounts),
    (osds.foldl osd_count_step c).not_up_not_in
      = c.not_up_not_in + osds.countP (fun o => !o.up && !o.inn)
  | [], c => by simp
  | o :: t, c => by
    simp only [List.foldl_cons, List.countP_cons]
    rw [osd_fold_not_up_not_in t, (osd_step_fields c o).2.2.2]
    omega

theorem osd_countP_partition (osds : List OsdEntry) :
    osds.countP (fun o => o.up && o.inn)
      + (osds.countP (fun o => o.up && !o.inn) + osds.countP (fun o => !o.up && o.inn))
      + osds.countP (fun o => !o.up && !o.inn) = osds.length := by
  induction osds with
  | nil => simp
  | cons o t ih =>
    cases hu : o.up <;> cases hi : o.inn <;>
      simp [List.countP_cons, hu, hi] <;> omega

/-- C6.  The OSD classifier partitions the OSDs by their (up, in)
flags: ok counts the up-and-in OSDs, warn counts those with exactly
one of the two flags set, critical counts those with neither, and the
three bucket counts sum to the total OSD count. -/
theorem C6_osd_counters_partition (osds : List OsdEntry) :
    (calculate_osd_counters osds).ok.count
        = osds.countP (fun o => o.up && o.inn) ∧
    (calculate_osd_counters osds).warn.count
        = osds.countP (fun o => o.up && !o.inn)
          + osds.countP (fun o => !o.up && o.inn) ∧
    (calculate_osd_counters osds).critical.count
        = osds.countP (fun o => !o.up && !o.inn) ∧
    (calculate_osd_counters osds).ok.count + (calculate_osd_counters osds).warn.count
        + (calculate_osd_counters osds).critical.count = osds.length := by
  have h1 : (osds.foldl osd_count_step ⟨0, 0, 0, 0⟩).up_in
      = osds.countP (fun o => o.up && o.inn) := by
    simpa using osd_fold_up_in osds ⟨0, 0, 0, 0⟩
  have h2 : (osds.foldl osd_count_step ⟨0, 0, 0, 0⟩).up_not_in
      = osds.countP (fun o => o.up && !o.inn) := by
    simpa using osd_fold_up_not_in osds ⟨0, 0, 0, 0⟩
  have h3 : (osds.foldl osd_count_step ⟨0, 0, 0, 0⟩).not_up_in
      = osds.countP (fun o => !o.up && o.inn) := by
    simpa using osd_fold_not_up_in osds ⟨0, 0, 0, 0⟩
  have h4 : (osds.foldl osd_count_step ⟨0, 0, 0, 0⟩).not_up_not_in
      = osds.countP (fun o => !o.up && !o.inn) := by
    simpa using osd_fold_not_up_not_in osds ⟨0, 0, 0, 0⟩
  have hok : (calculate_osd_counters osds).ok.count
      = (osds.foldl osd_count_step ⟨0, 0, 0, 0⟩).up_in := rfl
  have hwa : (calculate_osd_counters osds).warn.count
      = (osds.foldl osd_count_step ⟨0, 0, 0, 0⟩).up_not_in
        + (osds.foldl osd_count_step ⟨0, 0, 0, 0⟩).not_up_in := rfl
  have hcr : (calculate_osd_counters osds).critical.count
      = (osds.foldl osd_count_step ⟨0, 0, 0, 0⟩).not_up_not_in := rfl
  refine ⟨by omega, by omega, by omega, ?_⟩
  have := osd_countP_partition osds
  omega

/-- C7.  The code copies `pool['quota_max_bytes']` into the
`quota_max_objects` attribute (line 174): for a pool observed with
quota max bytes 100 and quota max objects 7 (and df stats present),
the stored record carries `quota_max_objects = 100`, not the observed
7. -/
theorem C7_quota_objects_copied_from_bytes :
    populate_pools_table [⟨1, "data", 100, 7⟩] [⟨1, ⟨50, 3⟩⟩] [] =
      [{ pool_id := 1, name := "data", quota_max_bytes := 100,
         quota_max_objects := 100, used_bytes := 50, used_objects := 3 }] ∧
    (OsdMapPool.mk 1 "data" 100 7).quota_max_objects = 7 ∧ (100 : Nat) ≠ 7 := by
  decide

/-- C8.  The address that keys Server records during reconciliation:
for IPv4 `ip:port/nonce` input it is the bare IP, but for bracketed
IPv6 input the caller-side `.split(":")[0]` (lines 414/424) truncates
the address before `_short_addr` sees it, so the Server created for an
OSD at `[fe80::1]:6800/0` is keyed by `fe80` instead of the bare IP
`fe80::1` — even though `_short_addr` itself handles the bracketed
form correctly. -/
theorem C8_server_key_mangles_ipv6 :
    caller_short_addr "192.168.0.1:6800/0" = "192.168.0.1" ∧
    short_addr "[fe80::1]:6800/0" = "fe80::1" ∧
    caller_short_addr "[fe80::1]:6800/0" = "fe80" ∧
    (reconcile ⟨.ok (fun _ => none), fun _ => none⟩
        [⟨5, "u", true, true, 0, "[fe80::1]:6800/0", "", "", ""⟩] [] ⟨[], [], 0⟩).toOption.map
        (fun o => o.db.servers.map (fun s => s.addr)) = some ["fe80"] ∧
    "fe80" ≠ "fe80::1" := by
  decide

/-- C9 counterexample.  A run in which a failure occurs while closing
the socket (the connection itself succeeded) returns `true`, not
`false`: the claim's "for every failure (..., or a failure while
closing the socket) it returns false" is refuted at this input. -/
theorem C9_close_failure_returns_true :
    (try_mon_connect ⟨fun _ _ => true, fun _ _ => true⟩ "1.2.3.4:6789/0").close_failed
      = true ∧
    (try_mon_connect ⟨fun _ _ => true, fun _ _ => true⟩ "1.2.3.4:6789/0").result
      ≠ Except.ok false := by
  decide

/-- C9 (amended).  The probe is total — it always hands its caller a
boolean, never an exception; it returns `false` without any connection
attempt when the address fails to parse or when the extracted IP is on
the ignore list (`0.0.0.0`, `::`, `0:0:0:0:0:0:0:0`); otherwise it
makes one connection attempt and returns exactly its outcome (so every
timeout / refusal yields `false` and success yields `true`); and a
failure while closing the socket never changes the result. -/
theorem C9_probe_total_amended (net : NetEnv) (mon_addr : String) :
    (∃ b, (try_mon_connect net mon_addr).result = Except.ok b) ∧
    (mon_parse mon_addr = none →
      (try_mon_connect net mon_addr).result = Except.ok false ∧
      (try_mon_connect net mon_addr).attempts = 0) ∧
    (∀ a p, mon_parse mon_addr = some (a, p) → a ∈ MON_ADDR_IGNORES →
      (try_mon_connect net mon_addr).result = Except.ok false ∧
      (try_mon_connect net mon_addr).attempts = 0) ∧
    (∀ a p, mon_parse mon_addr = some (a, p) → a ∉ MON_ADDR_IGNORES →
      (try_mon_connect net mon_addr).result = Except.ok (net.connect a p) ∧
      (try_mon_connect net mon_addr).attempts = 1) ∧
    (∀ cf : String → Nat → Bool,
      (try_mon_connect ⟨net.connect, cf⟩ mon_addr).result
        = (try_mon_connect net mon_addr).result) := by
  cases hp : mon_parse mon_addr with
  | none =>
    refine ⟨⟨false, ?_⟩, fun _ => ⟨?_, ?_⟩, ?_, ?_, ?_⟩ <;>
      simp [try_mon_connect, hp, py_catch]
  | some ap =>
    obtain ⟨a, p⟩ := ap
    by_cases hi : a ∈ MON_ADDR_IGNORES
    · refine ⟨⟨false, ?_⟩, ?_, ?_, ?_, ?_⟩ <;>
        simp_all [try_mon_connect, hp, py_catch, hi]
    · cases hc : net.connect a p
      · refine ⟨⟨false, ?_⟩, ?_, ?_, ?_, ?_⟩ <;>
          simp_all [try_mon_connect, hp, py_catch, hi, hc]
      · refine ⟨⟨true, ?_⟩, ?_, ?_, ?_, ?_⟩ <;>
          simp_all [try_mon_connect, hp, py_catch, hi, hc]

/-- Witness for C9 (amended) at the spec's own example: probing
`0.0.0.0:6789/0` parses to the ignored IP `0.0.0.0` and returns
`false` with zero connection attempts even though the oracle would
accept the connection. -/
theorem C9_probe_total_amended_witness :
    mon_parse "0.0.0.0:6789/0" = some ("0.0.0.0", 6789) ∧
    (try_mon_connect ⟨fun _ _ => true, fun _ _ => false⟩ "0.0.0.0:6789/0").result
      = Except.ok false ∧
    (try_mon_connect ⟨fun _ _ => true, fun _ _ => false⟩ "0.0.0.0:6789/0").attempts
      = 0 := by
  refine ⟨by decide, ?_, ?_⟩
  · exact ((C9_probe_total_amended ⟨fun _ _ => true, fun _ _ => false⟩
      "0.0.0.0:6789/0").2.2.1 "0.0.0.0" 6789 (by decide) (by decide)).1
  · exact ((C9_probe_total_amended ⟨fun _ _ => true, fun _ _ => false⟩
      "0.0.0.0:6789/0").2.2.1 "0.0.0.0" 6789 (by decide) (by decide)).2

/-! ### Registry lemmas -/

theorem update_server_services (db : RegDB) (s : ServerR) :
    (update_server db s).services = db.services := rfl

theorem update_server_next_id (db : RegDB) (s : ServerR) :
    (update_server db s).next_id = db.next_id := rfl

theorem update_server_addrs (db : RegDB) (s : ServerR) :
    (update_server db s).servers.map (fun t => t.addr)
      = db.servers.map (fun t => t.addr) := by
  simp only [update_server, List.map_map]
  refine List.map_congr_left (fun t _ => ?_)
  by_cases h : t.addr = s.addr <;> simp [h]

theorem find_server_some (db : RegDB) (addr : String) (s : ServerR)
    (h : find_server db addr = some s) : s ∈ db.servers ∧ s.addr = addr := by
  refine ⟨List.mem_of_find?_eq_some h, ?_⟩
  have := List.find?_some h
  simpa using this

theorem find_server_none (db : RegDB) (addr : String)
    (h : find_server db addr = none) : ∀ s ∈ db.servers, s.addr ≠ addr := by
  intro s hs
  have := List.find?_eq_none.mp h s hs
  simpa using this

theorem find_server_isSome (db : RegDB) (addr : String) (s : ServerR)
    (hs : s ∈ db.servers) (ha : s.addr = addr) : ∃ t, find_server db addr = some t := by
  rcases hf : find_server db addr with _ | t
  · exact absurd ha (find_server_none db addr hf s hs)
  · exact ⟨t, rfl⟩

theorem find_ss_some (db : RegDB) (addr : String) (t : SKind) (sid : Nat) (r : SS)
    (h : find_ss db addr t sid = some r) :
    r ∈ db.services ∧ r.server_addr = addr ∧ r.type = t ∧ r.service_id = sid := by
  refine ⟨List.mem_of_find?_eq_some h, ?_⟩
  have := List.find?_some h
  simp only [Bool.and_eq_true, beq_iff_eq] at this
  exact ⟨this.1.1, this.1.2, this.2⟩

theorem find_ss_none (db : RegDB) (addr : String) (t : SKind) (sid : Nat)
    (h : find_ss db addr t sid = none) :
    ∀ r ∈ db.services, ¬(r.server_addr = addr ∧ r.type = t ∧ r.service_id = sid) := by
  intro r hr
  have := List.find?_eq_none.mp h r hr
  simp only [Bool.and_eq_true, beq_iff_eq] at this
  tauto

theorem find_ss_isSome (db : RegDB) (addr : String) (t : SKind) (sid : Nat) (r : SS)
    (hr : r ∈ db.services) (ha : r.server_addr = addr) (ht : r.type = t)
    (hs : r.service_id = sid) : ∃ x, find_ss db addr t sid = some x := by
  rcases hf : find_ss db addr t sid with _ | x
  · exact absurd ⟨ha, ht, hs⟩ (find_ss_none db addr t sid hf r hr)
  · exact ⟨x, rfl⟩

theorem server_goc_services (db : RegDB) (addr : String) :
    (server_goc db addr).1.services = db.services := by
  unfold server_goc
  rcases find_server db addr with _ | s <;> rfl

theorem server_goc_next_id (db : RegDB) (addr : String) :
    (server_goc db addr).1.next_id = db.next_id := by
  unfold server_goc
  rcases find_server db addr with _ | s <;> rfl

theorem server_goc_addrs (db : RegDB) (addr : String) :
    (server_goc db addr).1.servers.map (fun s => s.addr) = db.servers.map (fun s => s.addr) ∨
    (server_goc db addr).1.servers.map (fun s => s.addr)
      = db.servers.map (fun s => s.addr) ++ [addr] := by
  unfold server_goc
  rcases find_server db addr with _ | s
  · right; simp
  · left; rfl

theorem server_goc_mem (db : RegDB) (addr : String) :
    addr ∈ (server_goc db addr).1.servers.map (fun s => s.addr) := by
  unfold server_goc
  rcases hf : find_server db addr with _ | s
  · simp
  · obtain ⟨hmem, ha⟩ := find_server_some db addr s hf
    simp only [List.mem_map]
    exact ⟨s, hmem, ha⟩

theorem server_goc_addrs_cases (db : RegDB) (addr : String) :
    (server_goc db addr).1.servers.map (fun s => s.addr) = db.servers.map (fun s => s.addr) ∨
    ((server_goc db addr).1.servers.map (fun s => s.addr)
        = db.servers.map (fun s => s.addr) ++ [addr] ∧
     addr ∉ db.servers.map (fun s => s.addr)) := by
  unfold server_goc
  rcases hf : find_server db addr with _ | s
  · right
    refine ⟨by simp, ?_⟩
    simp only [List.mem_map, not_exists, not_and]
    intro t ht
    exact find_server_none db addr hf t ht
  · left; rfl

theorem resolve_server_ok (env : ResolveEnv) (db : RegDB) (addr : String)
    (k : SKind) (name : String) (server : ServerR) (db' : RegDB) (srv : ServerR)
    (h : resolve_server env db addr k name server = .ok (db', srv)) :
    db'.services = db.services ∧ db'.next_id = db.next_id ∧
    db'.servers.map (fun s => s.addr) = db.servers.map (fun s => s.addr) := by
  unfold resolve_server at h
  by_cases hh : server.hostname = none
  · simp only [hh, if_true, reduceIte] at h
    cases k
    · rcases hcr : env.crush with e | cm <;> rw [hcr] at h
      · simp at h
      · by_cases hc : cm name = none ∨ cm name = some "localhost" <;>
          simp only [hc, if_true, if_false, reduceIte, Except.ok.injEq, Prod.mk.injEq] at h <;>
          rcases h with ⟨h1, _⟩ <;> subst h1 <;>
          exact ⟨update_server_services _ _, update_server_next_id _ _, update_server_addrs _ _⟩
    · rcases hrd : env.rdns addr with _ | hname <;> rw [hrd] at h <;>
        simp only [Except.ok.injEq, Prod.mk.injEq] at h <;>
        rcases h with ⟨h1, _⟩ <;> subst h1 <;>
        exact ⟨update_server_services _ _, update_server_next_id _ _, update_server_addrs _ _⟩
  · simp only [hh, if_false, reduceIte, Except.ok.injEq, Prod.mk.injEq] at h
    rcases h with ⟨h1, _⟩
    subst h1
    exact ⟨rfl, rfl, rfl⟩

theorem resolve_server_total (env : ResolveEnv) (db : RegDB) (addr : String)
    (k : SKind) (name : String) (server : ServerR) (cm : String → Option String)
    (hc : env.crush = .ok cm) :
    ∃ out, resolve_server env db addr k name server = .ok out := by
  unfold resolve_server
  by_cases hh : server.hostname = none
  · simp only [hh, if_true, reduceIte]
    cases k
    · rw [hc]
      by_cases hcm : cm name = none ∨ cm name = some "localhost" <;> simp [hcm]
    · rcases env.rdns addr with _ | h <;> simp
  · simp [hh]

theorem find_ss_goc (db : RegDB) (a addr : String) (k : SKind) (sid : Nat) :
    find_ss (server_goc db a).1 addr k sid = find_ss db addr k sid := by
  unfold find_ss
  rw [server_goc_services]

/-- When both the server and the ServiceStatus already exist,
`_register_service` changes nothing: no creation, no migration
cleanup, no hostname guessing. -/
theorem register_found (env : ResolveEnv) (db : RegDB) (addr : String) (k : SKind)
    (sid : Nat) (name : String) (s : ServerR) (r : SS)
    (hs : find_server db addr = some s) (hr : find_ss db addr k sid = some r) :
    register_service env db addr k sid name
      = .ok ⟨db, r, false, false, 0, s⟩ := by
  unfold register_service server_goc
  rw [hs]
  simp only []
  rw [show find_ss db addr k sid = some r from hr]

theorem register_ok_cases (env : ResolveEnv) (db : RegDB) (addr : String) (k : SKind)
    (sid : Nat) (name : String) (out : RegOut)
    (h : register_service env db addr k sid name = .ok out) :
    (out.created = false ∧ find_ss db addr k sid = some out.ss ∧
     out.db.services = db.services ∧ out.db.next_id = db.next_id ∧
     out.db.servers.map (fun s => s.addr)
        = (server_goc db addr).1.servers.map (fun s => s.addr) ∧
     out.mig_deletes = 0)
    ∨
    (out.created = true ∧ find_ss db addr k sid = none ∧
     out.ss = ⟨db.next_id, addr, k, sid, name⟩ ∧
     out.db.services = (db.services ++ [(⟨db.next_id, addr, k, sid, name⟩ : SS)]).filter
         (fun r => !stale_pred addr sid r) ∧
     out.db.next_id = db.next_id + 1 ∧
     out.db.servers.map (fun s => s.addr)
        = (server_goc db addr).1.servers.map (fun s => s.addr)) := by
  simp only [register_service] at h
  rw [find_ss_goc] at h
  rcases hf : find_ss db addr k sid with _ | r <;> rw [hf] at h
  · -- created
    rcases hres : resolve_server env
        { servers := (server_goc db addr).1.servers,
          services := ((server_goc db addr).1.services
              ++ [(⟨(server_goc db addr).1.next_id, addr, k, sid, name⟩ : SS)]).filter
            (fun r => !stale_pred addr sid r),
          next_id := (server_goc db addr).1.next_id + 1 }
        addr k name (server_goc db addr).2.1 with e | p
    · rw [hres] at h
      simp at h
    · obtain ⟨db4, srv⟩ := p
      rw [hres] at h
      simp only [Except.ok.injEq] at h
      subst h
      obtain ⟨hsv, hni, hmap⟩ := resolve_server_ok _ _ _ _ _ _ _ _ hres
      right
      refine ⟨rfl, rfl, ?_, ?_, ?_, ?_⟩
      · simp [server_goc_next_id]
      · simp only [hsv]
        rw [server_goc_services, server_goc_next_id]
      · simp only [hni]
        rw [server_goc_next_id]
      · simpa using hmap
  · -- found
    simp only [Except.ok.injEq] at h
    subst h
    left
    refine ⟨rfl, ?_, server_goc_services db addr, server_goc_next_id db addr, rfl, rfl⟩
    rfl

theorem register_WF (env : ResolveEnv) (db : RegDB) (addr : String) (k : SKind)
    (sid : Nat) (name : String) (out : RegOut)
    (h : register_service env db addr k sid name = .ok out) (hWF : db.WF) :
    out.db.WF := by
  obtain ⟨hkey, hids, hlt, haddr⟩ := hWF
  have haddr2 : ((server_goc db addr).1.servers.map (fun s => s.addr)).Nodup := by
    rcases server_goc_addrs_cases db addr with hc | ⟨hc, hnm⟩
    · rw [hc]; exact haddr
    · rw [hc, List.nodup_append]
      refine ⟨haddr, List.nodup_singleton _, ?_⟩
      intro a ha hm
      simp only [List.mem_singleton] at hm
      subst hm
      exact hnm ha
  rcases register_ok_cases env db addr k sid name out h with
    ⟨_, _, hsv, hni, hmap, _⟩ | ⟨_, hnone, _, hsv, hni, hmap⟩
  · refine ⟨?_, ?_, ?_, ?_⟩
    · rw [hsv]; exact hkey
    · rw [hsv]; exact hids
    · rw [hsv, hni]; exact hlt
    · rw [hmap]; exact haddr2
  · have hsub : out.db.services.Sublist
        (db.services ++ [(⟨db.next_id, addr, k, sid, name⟩ : SS)]) := by
      rw [hsv]; exact List.filter_sublist _
    refine ⟨?_, ?_, ?_, ?_⟩
    · intro r1 h1 r2 h2 hk
      have m1 := hsub.subset h1
      have m2 := hsub.subset h2
      rcases List.mem_append.mp m1 with m1 | m1 <;>
        rcases List.mem_append.mp m2 with m2 | m2
      · exact hkey r1 m1 r2 m2 hk
      · exfalso
        simp only [List.mem_singleton] at m2
        subst m2
        simp only [SS.key, Prod.mk.injEq] at hk
        exact find_ss_none db addr k sid hnone r1 m1 ⟨hk.1, hk.2.1, hk.2.2⟩
      · exfalso
        simp only [List.mem_singleton] at m1
        subst m1
        simp only [SS.key, Prod.mk.injEq] at hk
        exact find_ss_none db addr k sid hnone r2 m2 ⟨hk.1.symm, hk.2.1.symm, hk.2.2.symm⟩
      · simp only [List.mem_singleton] at m1 m2
        rw [m1, m2]
    · have : ((db.services ++ [(⟨db.next_id, addr, k, sid, name⟩ : SS)]).map
          (fun r => r.id)).Nodup := by
        simp only [List.map_append, List.map_cons, List.map_nil]
        rw [List.nodup_append]
        refine ⟨hids, List.nodup_singleton _, ?_⟩
        intro x hx
        simp only [List.mem_map] at hx
        obtain ⟨r, hr, hrid⟩ := hx
        simp only [List.mem_singleton]
        intro hcon
        subst hcon
        exact absurd hrid (Nat.ne_of_lt (hlt r hr))
      exact (hsub.map (fun r => r.id)).nodup this
    · intro r hr
      rw [hni]
      rcases List.mem_append.mp (hsub.subset hr) with hm | hm
      · exact Nat.lt_succ_of_lt (hlt r hm)
      · simp only [List.mem_singleton] at hm
        subst hm
        exact Nat.lt_succ_self _
    · rw [hmap]; exact haddr2

theorem reg_step_ok (env : ResolveEnv) (acc : FoldAcc) (ob : Obs) (acc2 : FoldAcc)
    (h : reg_step env acc ob = .ok acc2) :
    ∃ out, register_service env acc.db ob.addr ob.kind ob.sid ob.name = .ok out ∧
      acc2.db = out.db ∧
      acc2.old_ids = acc.old_ids.erase out.ss.id ∧
      acc2.old_addrs = acc.old_addrs.erase ob.addr ∧
      acc2.stats = { acc.stats with
        server_creates := acc.stats.server_creates + (if out.server_created then 1 else 0),
        ss_creates := acc.stats.ss_creates + (if out.created then 1 else 0),
        mig_deletes := acc.stats.mig_deletes + out.mig_deletes } := by
  unfold reg_step at h
  rcases hr : register_service env acc.db ob.addr ob.kind ob.sid ob.name with e | out <;>
    rw [hr] at h
  · simp at h
  · simp only [Except.ok.injEq] at h
    subst h
    exact ⟨out, rfl, rfl, rfl, rfl, rfl⟩

theorem register_next_id_mono (env : ResolveEnv) (db : RegDB) (addr : String)
    (k : SKind) (sid : Nat) (name : String) (out : RegOut)
    (h : register_service env db addr k sid name = .ok out) :
    db.next_id ≤ out.db.next_id := by
  rcases register_ok_cases env db addr k sid name out h with
    ⟨_, _, _, hni, _, _⟩ | ⟨_, _, _, _, hni, _⟩ <;> omega

/-- Once out of a candidate-deletion set, always out; deletion
candidates only shrink. -/
theorem reg_fold_old_mono (env : ResolveEnv) : ∀ (obs : List Obs) (acc acc' : FoldAcc),
    reg_fold env obs acc = .ok acc' →
    (∀ x, x ∉ acc.old_ids → x ∉ acc'.old_ids) ∧
    (∀ a, a ∉ acc.old_addrs → a ∉ acc'.old_addrs) ∧
    (acc.old_ids.Nodup → acc'.old_ids.Nodup) ∧
    (acc.old_addrs.Nodup → acc'.old_addrs.Nodup)
  | [], acc, acc', h => by
    simp only [reg_fold, Except.ok.injEq] at h
    subst h
    exact ⟨fun _ hx => hx, fun _ ha => ha, id, id⟩
  | ob :: rest, acc, acc', h => by
    simp only [reg_fold] at h
    rcases hs : reg_step env acc ob with e | acc2 <;> rw [hs] at h
    · simp at h
    · obtain ⟨out, _, _, hoi, hoa, _⟩ := reg_step_ok env acc ob acc2 hs
      obtain ⟨ih1, ih2, ih3, ih4⟩ := reg_fold_old_mono env rest acc2 acc' h
      refine ⟨?_, ?_, ?_, ?_⟩
      · intro x hx
        exact ih1 x (by rw [hoi]; exact fun hc => hx (List.mem_of_mem_erase hc))
      · intro a ha
        exact ih2 a (by rw [hoa]; exact fun hc => ha (List.mem_of_mem_erase hc))
      · intro hnd
        exact ih3 (by rw [hoi]; exact hnd.erase _)
      · intro hnd
        exact ih4 (by rw [hoa]; exact hnd.erase _)

/-- Databases only grow their primary-key sequence along a pass, and
well-formedness is preserved. -/
theorem reg_fold_wf_mono (env : ResolveEnv) : ∀ (obs : List Obs) (acc acc' : FoldAcc),
    reg_fold env obs acc = .ok acc' → acc.db.WF →
    acc'.db.WF ∧ acc.db.next_id ≤ acc'.db.next_id
  | [], acc, acc', h => by
    simp only [reg_fold, Except.ok.injEq] at h
    subst h
    exact fun hWF => ⟨hWF, Nat.le_refl _⟩
  | ob :: rest, acc, acc', h => by
    intro hWF
    simp only [reg_fold] at h
    rcases hs : reg_step env acc ob with e | acc2 <;> rw [hs] at h
    · simp at h
    · obtain ⟨out, hreg, hdb, _, _, _⟩ := reg_step_ok env acc ob acc2 hs
      have hWF2 : acc2.db.WF := by
        rw [hdb]; exact register_WF env acc.db _ _ _ _ out hreg hWF
      obtain ⟨ih1, ih2⟩ := reg_fold_wf_mono env rest acc2 acc' h hWF2
      refine ⟨ih1, le_trans ?_ ih2⟩
      rw [hdb]
      exact register_next_id_mono env acc.db _ _ _ _ out hreg

/-- A record whose key no later observation can delete survives the
registration loops. -/
theorem reg_fold_preserve (env : ResolveEnv) : ∀ (obs : List Obs) (acc acc' : FoldAcc)
    (r : SS), reg_fold env obs acc = .ok acc' → r ∈ acc.db.services →
    (∀ ob ∈ obs, ob.sid = r.service_id → ob.addr = r.server_addr) →
    r ∈ acc'.db.services
  | [], acc, acc', r, h, hr, _ => by
    simp only [reg_fold, Except.ok.injEq] at h
    subst h
    exact hr
  | ob :: rest, acc, acc', r, h, hr, hsafe => by
    simp only [reg_fold] at h
    rcases hs : reg_step env acc ob with e | acc2 <;> rw [hs] at h
    · simp at h
    · obtain ⟨out, hreg, hdb, _, _, _⟩ := reg_step_ok env acc ob acc2 hs
      have hr2 : r ∈ acc2.db.services := by
        rw [hdb]
        rcases register_ok_cases env acc.db _ _ _ _ out hreg with
          ⟨_, _, hsv, _, _, _⟩ | ⟨_, _, _, hsv, _, _⟩
        · rw [hsv]; exact hr
        · rw [hsv]
          refine List.mem_filter.mpr ⟨List.mem_append_left _ hr, ?_⟩
          simp only [stale_pred, Bool.not_eq_true']
          by_cases hsid : r.service_id = ob.sid
          · have haddr := hsafe ob (List.mem_cons_self _ _) hsid.symm
            simp [← haddr]
          · simp [hsid]
      exact reg_fold_preserve env rest acc2 acc' r h hr2
        (fun o ho => hsafe o (List.mem_cons_of_mem _ ho))

theorem register_mem_back (env : ResolveEnv) (db : RegDB) (addr : String) (k : SKind)
    (sid : Nat) (name : String) (out : RegOut)
    (h : register_service env db addr k sid name = .ok out) :
    ∀ x ∈ out.db.services, x.id < db.next_id → x ∈ db.services := by
  intro x hx hlt
  rcases register_ok_cases env db addr k sid name out h with
    ⟨_, _, hsv, _, _, _⟩ | ⟨_, _, _, hsv, _, _⟩
  · rw [hsv] at hx; exact hx
  · rw [hsv] at hx
    rcases List.mem_append.mp (List.mem_filter.mp hx).1 with hm | hm
    · exact hm
    · simp only [List.mem_singleton] at hm
      subst hm
      exact absurd hlt (Nat.lt_irrefl _)

/-- Every record in the database after the registration loops either
predates the pass (and is then untouched, recognizable by its small
primary key) or carries the key of some processed observation. -/
theorem reg_fold_mem_back (env : ResolveEnv) : ∀ (obs : List Obs) (acc acc' : FoldAcc),
    reg_fold env obs acc = .ok acc' → acc.db.WF →
    ∀ r ∈ acc'.db.services,
      (r.id < acc.db.next_id → r ∈ acc.db.services) ∧
      (r ∈ acc.db.services ∨ ∃ ob ∈ obs, SS.key r = Obs.key ob)
  | [], acc, acc', h => by
    simp only [reg_fold, Except.ok.injEq] at h
    subst h
    exact fun _ r hr => ⟨fun _ => hr, Or.inl hr⟩
  | ob :: rest, acc, acc', h => by
    intro hWF r hr
    simp only [reg_fold] at h
    rcases hs : reg_step env acc ob with e | acc2 <;> rw [hs] at h
    · simp at h
    · obtain ⟨out, hreg, hdb, _, _, _⟩ := reg_step_ok env acc ob acc2 hs
      have hWF2 : acc2.db.WF := by
        rw [hdb]; exact register_WF env acc.db _ _ _ _ out hreg hWF
      have hmono : acc.db.next_id ≤ acc2.db.next_id := by
        rw [hdb]; exact register_next_id_mono env acc.db _ _ _ _ out hreg
      obtain ⟨ih1, ih2⟩ := reg_fold_mem_back env rest acc2 acc' h hWF2 r hr
      have hstep : ∀ x : SS, x ∈ acc2.db.services →
          (x.id < acc.db.next_id → x ∈ acc.db.services) ∧
          (x ∈ acc.db.services ∨ SS.key x = Obs.key ob) := by
        intro x hx
        rw [hdb] at hx
        rcases register_ok_cases env acc.db _ _ _ _ out hreg with
          ⟨_, _, hsv, _, _, _⟩ | ⟨_, _, _, hsv, _, _⟩
        · rw [hsv] at hx
          exact ⟨fun _ => hx, Or.inl hx⟩
        · rw [hsv] at hx
          rcases List.mem_append.mp (List.mem_filter.mp hx).1 with hm | hm
          · exact ⟨fun _ => hm, Or.inl hm⟩
          · simp only [List.mem_singleton] at hm
            subst hm
            exact ⟨fun hlt => absurd hlt (Nat.lt_irrefl _), Or.inr rfl⟩
      constructor
      · intro hlt
        exact (hstep r (ih1 (Nat.lt_of_lt_of_le hlt hmono))).1 hlt
      · rcases ih2 with hin | ⟨o, ho, hk⟩
        · rcases (hstep r hin).2 with h1 | h1
          · exact Or.inl h1
          · exact Or.inr ⟨ob, List.mem_cons_self _ _, h1⟩
        · exact Or.inr ⟨o, List.mem_cons_of_mem _ ho, hk⟩

/-- Server rows are never deleted during the registration loops, and
every address present afterwards is either pre-existing or that of an
observation. -/
theorem reg_fold_servers (env : ResolveEnv) : ∀ (obs : List Obs) (acc acc' : FoldAcc),
    reg_fold env obs acc = .ok acc' →
    (∀ a, a ∈ acc.db.servers.map (fun s => s.addr) →
       a ∈ acc'.db.servers.map (fun s => s.addr)) ∧
    (∀ a, a ∈ acc'.db.servers.map (fun s => s.addr) →
       a ∈ acc.db.servers.map (fun s => s.addr) ∨ ∃ ob ∈ obs, a = ob.addr)
  | [], acc, acc', h => by
    simp only [reg_fold, Except.ok.injEq] at h
    subst h
    exact ⟨fun _ ha => ha, fun _ ha => Or.inl ha⟩
  | ob :: rest, acc, acc', h => by
    simp only [reg_fold] at h
    rcases hs : reg_step env acc ob with e | acc2 <;> rw [hs] at h
    · simp at h
    · obtain ⟨out, hreg, hdb, _, _, _⟩ := reg_step_ok env acc ob acc2 hs
      have hmap : acc2.db.servers.map (fun s => s.addr)
          = (server_goc acc.db ob.addr).1.servers.map (fun s => s.addr) := by
        rw [hdb]
        rcases register_ok_cases env acc.db _ _ _ _ out hreg with
          ⟨_, _, _, _, hm, _⟩ | ⟨_, _, _, _, _, hm⟩ <;> exact hm
      obtain ⟨ih1, ih2⟩ := reg_fold_servers env rest acc2 acc' h
      constructor
      · intro a ha
        refine ih1 a ?_
        rw [hmap]
        rcases server_goc_addrs_cases acc.db ob.addr with hc | ⟨hc, _⟩
        · rw [hc]; exact ha
        · rw [hc]; exact List.mem_append_left _ ha
      · intro a ha
        rcases ih2 a ha with hin | ⟨o, ho, hk⟩
        · rw [hmap] at hin
          rcases server_goc_addrs_cases acc.db ob.addr with hc | ⟨hc, _⟩
          · rw [hc] at hin; exact Or.inl hin
          · rw [hc] at hin
            rcases List.mem_append.mp hin with hm | hm
            · exact Or.inl hm
            · simp only [List.mem_singleton] at hm
              exact Or.inr ⟨ob, List.mem_cons_self _ _, hm⟩
        · exact Or.inr ⟨o, List.mem_cons_of_mem _ ho, hk⟩

/-- An id removed from the deletion-candidate set during the loops was
discarded at its registration step: it belongs to a pre-existing
record whose key matches some observation.  Likewise for addresses. -/
theorem reg_fold_erased (env : ResolveEnv) : ∀ (obs : List Obs) (acc acc' : FoldAcc),
    reg_fold env obs acc = .ok acc' → acc.db.WF →
    (∀ x, x ∈ acc.old_ids → x ∉ acc'.old_ids → x < acc.db.next_id →
       ∃ r, r ∈ acc.db.services ∧ r.id = x ∧ ∃ ob ∈ obs, SS.key r = Obs.key ob) ∧
    (∀ a, a ∈ acc.old_addrs → a ∉ acc'.old_addrs → ∃ ob ∈ obs, a = ob.addr)
  | [], acc, acc', h => by
    simp only [reg_fold, Except.ok.injEq] at h
    subst h
    exact fun _ => ⟨fun x hx hnx _ => absurd hx hnx, fun a ha hna => absurd ha hna⟩
  | ob :: rest, acc, acc', h => by
    intro hWF
    simp only [reg_fold] at h
    rcases hs : reg_step env acc ob with e | acc2 <;> rw [hs] at h
    · simp at h
    · obtain ⟨out, hreg, hdb, hoi, hoa, _⟩ := reg_step_ok env acc ob acc2 hs
      have hWF2 : acc2.db.WF := by
        rw [hdb]; exact register_WF env acc.db _ _ _ _ out hreg hWF
      have hmono : acc.db.next_id ≤ acc2.db.next_id := by
        rw [hdb]; exact register_next_id_mono env acc.db _ _ _ _ out hreg
      obtain ⟨ih1, ih2⟩ := reg_fold_erased env rest acc2 acc' h hWF2
      constructor
      · intro x hx hnx hlt
        by_cases hx2 : x ∈ acc2.old_ids
        · obtain ⟨r, hr, hid, o, ho, hk⟩ :=
            ih1 x hx2 hnx (Nat.lt_of_lt_of_le hlt hmono)
          have hr2 : r ∈ out.db.services := by rw [← hdb]; exact hr
          have hback := register_mem_back env acc.db _ _ _ _ out hreg r hr2 (by omega)
          exact ⟨r, hback, hid, o, List.mem_cons_of_mem _ ho, hk⟩
        · -- erased at this very step: x is the id of the found record
          have hxeq : x = out.ss.id := by
            by_contra hne
            rw [hoi] at hx2
            exact hx2 ((List.mem_erase_of_ne hne).mpr hx)
          rcases register_ok_cases env acc.db _ _ _ _ out hreg with
            ⟨_, hfind, _, _, _, _⟩ | ⟨_, _, hss, _, _, _⟩
          · obtain ⟨hm, ha, ht, hsid⟩ := find_ss_some _ _ _ _ _ hfind
            refine ⟨out.ss, hm, hxeq.symm, ob, List.mem_cons_self _ _, ?_⟩
            simp [SS.key, Obs.key, ha, ht, hsid]
          · exfalso
            rw [hss] at hxeq
            simp only at hxeq
            omega
      · intro a ha hna
        by_cases ha2 : a ∈ acc2.old_addrs
        · obtain ⟨o, ho, hk⟩ := ih2 a ha2 hna
          exact ⟨o, List.mem_cons_of_mem _ ho, hk⟩
        · have : a = ob.addr := by
            by_contra hne
            rw [hoa] at ha2
            exact ha2 ((List.mem_erase_of_ne hne).mpr ha)
          exact ⟨ob, List.mem_cons_self _ _, this⟩

/-- After the registration loops, every observation has a matching
ServiceStatus record whose id has been discarded from the deletion
candidates, and a Server at its address likewise discarded — provided
no later observation with the same service id lives at a different
address (which the claims' well-formedness hypotheses guarantee). -/
theorem reg_fold_observed (env : ResolveEnv) : ∀ (obs : List Obs) (acc acc' : FoldAcc),
    reg_fold env obs acc = .ok acc' → acc.db.WF →
    acc.old_ids.Nodup → acc.old_addrs.Nodup →
    (∀ x ∈ acc.old_ids, x < acc.db.next_id) →
    obs.Pairwise (fun o1 o2 => o2.sid = o1.sid → o2.addr = o1.addr) →
    ∀ ob ∈ obs,
      ∃ r, r ∈ acc'.db.services ∧ SS.key r = Obs.key ob ∧ r.id ∉ acc'.old_ids ∧
        ob.addr ∈ acc'.db.servers.map (fun s => s.addr) ∧ ob.addr ∉ acc'.old_addrs
  | [], acc, acc', h => by
    intro _ _ _ _ _ ob hob
    exact absurd hob (List.not_mem_nil _)
  | ob0 :: rest, acc, acc', h => by
    intro hWF hndi hnda hbound hpw ob hob
    simp only [reg_fold] at h
    rcases hs : reg_step env acc ob0 with e | acc2 <;> rw [hs] at h
    · simp at h
    · obtain ⟨out, hreg, hdb, hoi, hoa, _⟩ := reg_step_ok env acc ob0 acc2 hs
      have hWF2 : acc2.db.WF := by
        rw [hdb]; exact register_WF env acc.db _ _ _ _ out hreg hWF
      have hmono : acc.db.next_id ≤ acc2.db.next_id := by
        rw [hdb]; exact register_next_id_mono env acc.db _ _ _ _ out hreg
      have hndi2 : acc2.old_ids.Nodup := by rw [hoi]; exact hndi.erase _
      have hnda2 : acc2.old_addrs.Nodup := by rw [hoa]; exact hnda.erase _
      have hbound2 : ∀ x ∈ acc2.old_ids, x < acc2.db.next_id := by
        intro x hx
        rw [hoi] at hx
        exact Nat.lt_of_lt_of_le (hbound x (List.mem_of_mem_erase hx)) hmono
      obtain ⟨hhead, hpw2⟩ := List.pairwise_cons.mp hpw
      rcases List.mem_cons.mp hob with hob | hob
      · -- the head observation: establish at this step, then carry through
        subst hob
        have hmap : acc2.db.servers.map (fun s => s.addr)
            = (server_goc acc.db ob.addr).1.servers.map (fun s => s.addr) := by
          rw [hdb]
          rcases register_ok_cases env acc.db _ _ _ _ out hreg with
            ⟨_, _, _, _, hm, _⟩ | ⟨_, _, _, _, _, hm⟩ <;> exact hm
        have haddr_in : ob.addr ∈ acc2.db.servers.map (fun s => s.addr) := by
          rw [hmap]; exact server_goc_mem acc.db ob.addr
        have haddr_out : ob.addr ∉ acc2.old_addrs := by
          intro hmem
          rw [hoa] at hmem
          exact ((hnda.mem_erase_iff).mp hmem).1 rfl
        obtain ⟨r0, hr0mem, hr0key, hr0id⟩ :
            ∃ r0, r0 ∈ acc2.db.services ∧ SS.key r0 = Obs.key ob ∧
              r0.id ∉ acc2.old_ids := by
          rcases register_ok_cases env acc.db _ _ _ _ out hreg with
            ⟨_, hfind, hsv, _, _, _⟩ | ⟨_, _, hss, hsv, _, _⟩
          · obtain ⟨hm, ha, ht, hsid⟩ := find_ss_some _ _ _ _ _ hfind
            refine ⟨out.ss, by rw [hdb, hsv]; exact hm, ?_, ?_⟩
            · simp [SS.key, Obs.key, ha, ht, hsid]
            · intro hmem
              rw [hoi] at hmem
              exact ((hndi.mem_erase_iff).mp hmem).1 rfl
          · refine ⟨out.ss, ?_, ?_, ?_⟩
            · rw [hdb, hsv, hss]
              refine List.mem_filter.mpr
                ⟨List.mem_append_right _ (List.mem_singleton.mpr rfl), ?_⟩
              simp [stale_pred]
            · rw [hss]; simp [SS.key, Obs.key]
            · rw [hss]
              intro hmem
              rw [hoi] at hmem
              have hin := List.mem_of_mem_erase hmem
              have := hbound _ hin
              simp only at this
              omega
        have hsid0 : r0.service_id = ob.sid := by
          have := congrArg (fun p => p.2.2) hr0key
          simpa [SS.key, Obs.key] using this
        have haddr0 : r0.server_addr = ob.addr := by
          have := congrArg (fun p => p.1) hr0key
          simpa [SS.key, Obs.key] using this
        refine ⟨r0, ?_, hr0key, ?_, ?_, ?_⟩
        · refine reg_fold_preserve env rest acc2 acc' r0 h hr0mem ?_
          intro o ho hosid
          rw [haddr0]
          exact hhead o ho (by rw [← hsid0]; exact hosid)
        · exact (reg_fold_old_mono env rest acc2 acc' h).1 _ hr0id
        · exact (reg_fold_servers env rest acc2 acc' h).1 _ haddr_in
        · exact (reg_fold_old_mono env rest acc2 acc' h).2.1 _ haddr_out
      · exact reg_fold_observed env rest acc2 acc' h hWF2 hndi2 hnda2 hbound2 hpw2 ob hob

/-- When every observation already has its server and its
ServiceStatus record in the database (with unique keys), the
registration loops change nothing: no creates, no deletes, and every
observed record id and address is discarded from the deletion
candidates. -/
theorem reg_fold_found_all (env : ResolveEnv) : ∀ (obs : List Obs) (acc : FoldAcc),
    (∀ r1 ∈ acc.db.services, ∀ r2 ∈ acc.db.services, SS.key r1 = SS.key r2 → r1 = r2) →
    acc.old_ids.Nodup → acc.old_addrs.Nodup →
    (∀ ob ∈ obs, (∃ r ∈ acc.db.services, SS.key r = Obs.key ob) ∧
       ob.addr ∈ acc.db.servers.map (fun s => s.addr)) →
    ∃ acc', reg_fold env obs acc = .ok acc' ∧ acc'.db = acc.db ∧
      acc'.stats = acc.stats ∧
      (∀ r ∈ acc.db.services, (∃ ob ∈ obs, SS.key r = Obs.key ob) → r.id ∉ acc'.old_ids) ∧
      (∀ a, (∃ ob ∈ obs, a = ob.addr) → a ∉ acc'.old_addrs)
  | [], acc => by
    intro _ _ _ _
    refine ⟨acc, rfl, rfl, rfl, ?_, ?_⟩
    · rintro r _ ⟨ob, hob, _⟩
      exact absurd hob (List.not_mem_nil _)
    · rintro a ⟨ob, hob, _⟩
      exact absurd hob (List.not_mem_nil _)
  | ob0 :: rest, acc => by
    intro hku hndi hnda hfound
    obtain ⟨⟨r0, hr0, hkey0⟩, haddr0⟩ := hfound ob0 (List.mem_cons_self _ _)
    obtain ⟨s0, hs0, hs0a⟩ := List.mem_map.mp haddr0
    obtain ⟨s1, hfs⟩ := find_server_isSome acc.db ob0.addr s0 hs0 hs0a
    have hr0a : r0.server_addr = ob0.addr := by
      have := congrArg (fun p => p.1) hkey0
      simpa [SS.key, Obs.key] using this
    have hr0t : r0.type = ob0.kind := by
      have := congrArg (fun p => p.2.1) hkey0
      simpa [SS.key, Obs.key] using this
    have hr0s : r0.service_id = ob0.sid := by
      have := congrArg (fun p => p.2.2) hkey0
      simpa [SS.key, Obs.key] using this
    obtain ⟨r1, hf1⟩ := find_ss_isSome acc.db ob0.addr ob0.kind ob0.sid r0 hr0 hr0a hr0t hr0s
    have hreg := register_found env acc.db ob0.addr ob0.kind ob0.sid ob0.name s1 r1 hfs hf1
    have hr1mem : r1 ∈ acc.db.services := (find_ss_some _ _ _ _ _ hf1).1
    have hr1key : SS.key r1 = Obs.key ob0 := by
      obtain ⟨_, ha, ht, hs⟩ := find_ss_some _ _ _ _ _ hf1
      simp [SS.key, Obs.key, ha, ht, hs]
    have hstep : reg_step env acc ob0 = .ok
        { db := acc.db,
          old_ids := acc.old_ids.erase r1.id,
          old_addrs := acc.old_addrs.erase ob0.addr,
          osd_map :=
            if ob0.kind = SKind.osd then
              (fun n => if n = ob0.name then some s1 else acc.osd_map n)
            else acc.osd_map,
          stats := acc.stats } := by
      unfold reg_step
      rw [hreg]
      rfl
    obtain ⟨acc', hfold, hdb', hstats', h4, h5⟩ :=
      reg_fold_found_all env rest
        { db := acc.db,
          old_ids := acc.old_ids.erase r1.id,
          old_addrs := acc.old_addrs.erase ob0.addr,
          osd_map :=
            if ob0.kind = SKind.osd then
              (fun n => if n = ob0.name then some s1 else acc.osd_map n)
            else acc.osd_map,
          stats := acc.stats }
        hku (hndi.erase _) (hnda.erase _)
        (fun ob hob => hfound ob (List.mem_cons_of_mem _ hob))
    refine ⟨acc', ?_, hdb', hstats', ?_, ?_⟩
    · simp only [reg_fold, hstep]
      exact hfold
    · rintro r hr ⟨ob, hob, hkey⟩
      rcases List.mem_cons.mp hob with hob | hob
      · subst hob
        have : r = r1 := hku r hr r1 hr1mem (by rw [hkey, hr1key])
        subst this
        have hout : r.id ∉ acc.old_ids.erase r.id := by
          intro hmem
          exact ((hndi.mem_erase_iff).mp hmem).1 rfl
        exact (reg_fold_old_mono env rest _ acc' hfold).1 _ hout
      · exact h4 r hr ⟨ob, hob, hkey⟩
    · rintro a ⟨ob, hob, hka⟩
      rcases List.mem_cons.mp hob with hob | hob
      · subst hob
        subst hka
        have hout : ob.addr ∉ acc.old_addrs.erase ob.addr := by
          intro hmem
          exact ((hnda.mem_erase_iff).mp hmem).1 rfl
        exact (reg_fold_old_mono env rest _ acc' hfold).2.1 _ hout
      · exact h5 a ⟨ob, hob, hka⟩

theorem reconcile_ok_elim (env : ResolveEnv) (osds : List OsdEntry)
    (mons : List MonEntry) (db0 : RegDB) (out : RecOut)
    (h : reconcile env osds mons db0 = .ok out) :
    ∃ acc', reg_fold env (osds.map obs_of_osd ++ mons.map obs_of_mon)
        ⟨db0, db0.services.map (fun r => r.id), db0.servers.map (fun s => s.addr),
         fun _ => none, ⟨0, 0, 0, 0, 0⟩⟩ = .ok acc' ∧ out = sweep acc' := by
  simp only [reconcile] at h
  rcases hf : reg_fold env (osds.map obs_of_osd ++ mons.map obs_of_mon)
      ⟨db0, db0.services.map (fun r => r.id), db0.servers.map (fun s => s.addr),
       fun _ => none, ⟨0, 0, 0, 0, 0⟩⟩ with e | acc' <;> rw [hf] at h
  · simp at h
  · simp only [Except.ok.injEq] at h
    exact ⟨acc', hf, h.symm⟩

theorem sweep_fields (acc : FoldAcc) :
    (sweep acc).db.services
      = (acc.db.services.filter (fun r => !acc.old_ids.contains r.id)).filter
          (fun r => !acc.old_addrs.contains r.server_addr) ∧
    (sweep acc).db.servers
      = acc.db.servers.filter (fun s => !acc.old_addrs.contains s.addr) ∧
    (sweep acc).db.next_id = acc.db.next_id ∧
    (sweep acc).osd_map = acc.osd_map := ⟨rfl, rfl, rfl, rfl⟩

theorem nodup_map_inj {α β : Type} (f : α → β) (l : List α)
    (h : (l.map f).Nodup) (a b : α) (ha : a ∈ l) (hb : b ∈ l) (hf : f a = f b) :
    a = b := by
  exact List.inj_on_of_nodup_map h ha hb hf

theorem reconcile_survivors (env : ResolveEnv) (osds : List OsdEntry)
    (mons : List MonEntry) (db0 : RegDB) (out : RecOut)
    (h : reconcile env osds mons db0 = .ok out) (hWF : db0.WF) :
    out.db.WF ∧
    (∀ r ∈ out.db.services,
       ∃ ob ∈ osds.map obs_of_osd ++ mons.map obs_of_mon, SS.key r = Obs.key ob) ∧
    (∀ a ∈ out.db.servers.map (fun s => s.addr),
       ∃ ob ∈ osds.map obs_of_osd ++ mons.map obs_of_mon, a = ob.addr) := by
  obtain ⟨acc', hfold, hsw⟩ := reconcile_ok_elim env osds mons db0 out h
  set obs := osds.map obs_of_osd ++ mons.map obs_of_mon with hobs
  set acc0 : FoldAcc :=
    ⟨db0, db0.services.map (fun r => r.id), db0.servers.map (fun s => s.addr),
     fun _ => none, ⟨0, 0, 0, 0, 0⟩⟩ with hacc0
  have hWF' : acc'.db.WF := (reg_fold_wf_mono env obs acc0 acc' hfold hWF).1
  have hsubsv : out.db.services.Sublist acc'.db.services := by
    rw [hsw]
    exact ((List.filter_sublist _).trans (List.filter_sublist _))
  have hsubsrv : out.db.servers.Sublist acc'.db.servers := by
    rw [hsw]
    exact List.filter_sublist _
  refine ⟨?_, ?_, ?_⟩
  · obtain ⟨k1, k2, k3, k4⟩ := hWF'
    refine ⟨?_, ?_, ?_, ?_⟩
    · intro r1 h1 r2 h2 hk
      exact k1 r1 (hsubsv.subset h1) r2 (hsubsv.subset h2) hk
    · exact (hsubsv.map (fun r => r.id)).nodup k2
    · intro r hr
      have := k3 r (hsubsv.subset hr)
      have hni : (sweep acc').db.next_id = acc'.db.next_id := rfl
      rw [hsw]
      omega
    · exact (hsubsrv.map (fun s => s.addr)).nodup k4
  · intro r hr
    have hr' : r ∈ acc'.db.services := hsubsv.subset hr
    have hrid : r.id ∉ acc'.old_ids := by
      have := hr
      rw [hsw] at this
      have h1 := (List.mem_filter.mp ((List.filter_sublist _).subset this)).2
      simp only [Bool.not_eq_true', ← Bool.not_eq_true] at h1
      intro hc
      exact h1 (List.elem_eq_true_of_mem hc)
    rcases (reg_fold_mem_back env obs acc0 acc' hfold hWF r hr').2 with hin | hk
    · have hidmem : r.id ∈ acc0.old_ids := List.mem_map_of_mem _ hin
      have hlt : r.id < acc0.db.next_id := hWF.2.2.1 r hin
      obtain ⟨r', hr'0, hid', ob, hob, hk'⟩ :=
        (reg_fold_erased env obs acc0 acc' hfold hWF).1 r.id hidmem hrid hlt
      have : r' = r := nodup_map_inj (fun x => x.id) db0.services hWF.2.1 r' r hr'0 hin hid'
      subst this
      exact ⟨ob, hob, hk'⟩
    · exact hk
  · intro a ha
    obtain ⟨s, hs, hsa⟩ := List.mem_map.mp ha
    have hs' : s ∈ acc'.db.servers := hsubsrv.subset hs
    have hsaddr : a ∉ acc'.old_addrs := by
      have hmem := hs
      rw [hsw] at hmem
      have h1 := (List.mem_filter.mp hmem).2
      simp only [Bool.not_eq_true'] at h1
      rw [hsa] at h1
      intro hc
      have h2 := List.elem_eq_true_of_mem hc
      have h3 : List.elem a acc'.old_addrs = false := h1
      rw [h3] at h2
      exact Bool.noConfusion h2
    have hamem : a ∈ acc'.db.servers.map (fun s => s.addr) := by
      rw [← hsa]
      exact List.mem_map_of_mem _ hs'
    rcases (reg_fold_servers env obs acc0 acc' hfold).2 a hamem with hin | hk
    · exact (reg_fold_erased env obs acc0 acc' hfold hWF).2 a hin hsaddr
    · exact hk

theorem obs_pairwise_safe (osds : List OsdEntry) (mons : List MonEntry)
    (hid : (osds.map (fun o => o.osd)).Nodup) (hrk : (mons.map (fun m => m.rank)).Nodup)
    (hdisj : ∀ m ∈ mons, ∀ o ∈ osds, m.rank ≠ o.osd) :
    (osds.map obs_of_osd ++ mons.map obs_of_mon).Pairwise
      (fun o1 o2 => o2.sid = o1.sid → o2.addr = o1.addr) := by
  rw [List.pairwise_append]
  refine ⟨?_, ?_, ?_⟩
  · rw [List.pairwise_map]
    have hne : osds.Pairwise (fun a b => a.osd ≠ b.osd) := List.pairwise_map.mp hid
    exact hne.imp (fun h hsid => absurd hsid (by simpa [obs_of_osd] using fun hh => h hh.symm))
  · rw [List.pairwise_map]
    have hne : mons.Pairwise (fun a b => a.rank ≠ b.rank) := List.pairwise_map.mp hrk
    exact hne.imp (fun h hsid => absurd hsid (by simpa [obs_of_mon] using fun hh => h hh.symm))
  · intro o1 ho1 o2 ho2
    obtain ⟨o, ho, rfl⟩ := List.mem_map.mp ho1
    obtain ⟨m, hm, rfl⟩ := List.mem_map.mp ho2
    intro hsid
    exact absurd (by simpa [obs_of_osd, obs_of_mon] using hsid) (hdisj m hm o ho)

theorem reconcile_observed (env : ResolveEnv) (osds : List OsdEntry)
    (mons : List MonEntry) (db0 : RegDB) (out : RecOut)
    (h : reconcile env osds mons db0 = .ok out) (hWF : db0.WF)
    (hid : (osds.map (fun o => o.osd)).Nodup)
    (hrk : (mons.map (fun m => m.rank)).Nodup)
    (hdisj : ∀ m ∈ mons, ∀ o ∈ osds, m.rank ≠ o.osd) :
    ∀ ob ∈ osds.map obs_of_osd ++ mons.map obs_of_mon,
      (∃ r ∈ out.db.services, SS.key r = Obs.key ob) ∧
      ob.addr ∈ out.db.servers.map (fun s => s.addr) := by
  obtain ⟨acc', hfold, hsw⟩ := reconcile_ok_elim env osds mons db0 out h
  set obs := osds.map obs_of_osd ++ mons.map obs_of_mon with hobs
  set acc0 : FoldAcc :=
    ⟨db0, db0.services.map (fun r => r.id), db0.servers.map (fun s => s.addr),
     fun _ => none, ⟨0, 0, 0, 0, 0⟩⟩ with hacc0
  intro ob hob
  obtain ⟨r, hrmem, hrkey, hrid, haddr_in, haddr_out⟩ :=
    reg_fold_observed env obs acc0 acc' hfold hWF hWF.2.1 hWF.2.2.2
      (fun x hx => by
        obtain ⟨rr, hrr, hrrid⟩ := List.mem_map.mp hx
        exact hrrid ▸ hWF.2.2.1 rr hrr)
      (obs_pairwise_safe osds mons hid hrk hdisj) ob hob
  have hraddr : r.server_addr = ob.addr := by
    have := congrArg (fun p => p.1) hrkey
    simpa [SS.key, Obs.key] using this
  constructor
  · refine ⟨r, ?_, hrkey⟩
    rw [hsw]
    refine List.mem_filter.mpr ⟨List.mem_filter.mpr ⟨hrmem, ?_⟩, ?_⟩
    · simp only [Bool.not_eq_true']
      by_contra hc
      simp only [Bool.not_eq_false] at hc
      exact hrid (List.mem_of_elem_eq_true hc)
    · simp only [Bool.not_eq_true']
      by_contra hc
      simp only [Bool.not_eq_false] at hc
      rw [hraddr] at hc
      exact haddr_out (List.mem_of_elem_eq_true hc)
  · obtain ⟨s, hs, hsa⟩ := List.mem_map.mp haddr_in
    rw [hsw]
    simp only [List.mem_map]
    refine ⟨s, List.mem_filter.mpr ⟨hs, ?_⟩, hsa⟩
    simp only [Bool.not_eq_true']
    by_contra hc
    simp only [Bool.not_eq_false] at hc
    rw [hsa] at hc
    exact haddr_out (List.mem_of_elem_eq_true hc)

theorem except_toOption_ok {ε α : Type} (a : α) :
    (Except.ok a : Except ε α).toOption = some a := rfl

theorem except_toOption_error {ε α : Type} (e : ε) :
    (Except.error e : Except ε α).toOption = none := rfl

theorem option_bind_some {α β : Type} (a : α) (f : α → Option β) :
    (Option.some a).bind f = f a := rfl

theorem option_map_some {α β : Type} (a : α) (f : α → β) :
    (Option.some a).map f = some (f a) := rfl

theorem bnot_contains {α : Type} [BEq α] [LawfulBEq α] {a : α} {l : List α}
    (h : a ∉ l) : (!l.contains a) = true := by
  have hne : l.elem a ≠ true := fun hc => h (List.mem_of_elem_eq_true hc)
  rcases hb : l.elem a with _ | _
  · show (!List.elem a l) = true
    rw [hb]
    rfl
  · exact absurd hb hne

theorem list_eq_singleton_of_unique {α : Type} {l : List α} (hnd : l.Nodup)
    (r : α) (hr : r ∈ l) (hall : ∀ x ∈ l, x = r) : l = [r] := by
  rcases l with _ | ⟨a, t⟩
  · cases hr
  · have ha : a = r := hall a (List.mem_cons_self _ _)
    have ht : t = [] := by
      rcases t with _ | ⟨b, t2⟩
      · rfl
      · exfalso
        have hb : b = r := hall b (List.mem_cons_of_mem _ (List.mem_cons_self _ _))
        have hnin := (List.nodup_cons.mp hnd).1
        rw [ha, ← hb] at hnin
        exact hnin (List.mem_cons_self _ _)
    rw [ha, ht]

/-- After a full pass, a (kind, identity) pair has at most one
ServiceStatus record. -/
theorem reconcile_at_most_one (env : ResolveEnv) (osds : List OsdEntry)
    (mons : List MonEntry) (db0 : RegDB) (out : RecOut)
    (h : reconcile env osds mons db0 = .ok out) (hWF : db0.WF)
    (hid : (osds.map (fun o => o.osd)).Nodup)
    (hrk : (mons.map (fun m => m.rank)).Nodup) :
    ∀ r1 ∈ out.db.services, ∀ r2 ∈ out.db.services,
      r1.type = r2.type → r1.service_id = r2.service_id → r1 = r2 := by
  obtain ⟨hWFout, hkeys, _⟩ := reconcile_survivors env osds mons db0 out h hWF
  intro r1 h1 r2 h2 ht hsid
  obtain ⟨ob1, hob1, hk1⟩ := hkeys r1 h1
  obtain ⟨ob2, hob2, hk2⟩ := hkeys r2 h2
  have c1t : r1.type = ob1.kind := by
    have := congrArg (fun p => p.2.1) hk1
    simpa [SS.key, Obs.key] using this
  have c2t : r2.type = ob2.kind := by
    have := congrArg (fun p => p.2.1) hk2
    simpa [SS.key, Obs.key] using this
  have c1s : r1.service_id = ob1.sid := by
    have := congrArg (fun p => p.2.2) hk1
    simpa [SS.key, Obs.key] using this
  have c2s : r2.service_id = ob2.sid := by
    have := congrArg (fun p => p.2.2) hk2
    simpa [SS.key, Obs.key] using this
  have hkind : ob1.kind = ob2.kind := by rw [← c1t, ← c2t, ht]
  have hsid2 : ob1.sid = ob2.sid := by rw [← c1s, ← c2s, hsid]
  have hobeq : ob1 = ob2 := by
    rcases List.mem_append.mp hob1 with m1 | m1 <;>
      rcases List.mem_append.mp hob2 with m2 | m2
    · obtain ⟨x1, hx1, rfl⟩ := List.mem_map.mp m1
      obtain ⟨x2, hx2, rfl⟩ := List.mem_map.mp m2
      have : x1.osd = x2.osd := by simpa [obs_of_osd] using hsid2
      rw [nodup_map_inj _ osds hid x1 x2 hx1 hx2 this]
    · obtain ⟨x1, _, rfl⟩ := List.mem_map.mp m1
      obtain ⟨x2, _, rfl⟩ := List.mem_map.mp m2
      exact absurd hkind (by simp [obs_of_osd, obs_of_mon])
    · obtain ⟨x1, _, rfl⟩ := List.mem_map.mp m1
      obtain ⟨x2, _, rfl⟩ := List.mem_map.mp m2
      exact absurd hkind (by simp [obs_of_osd, obs_of_mon])
    · obtain ⟨x1, hx1, rfl⟩ := List.mem_map.mp m1
      obtain ⟨x2, hx2, rfl⟩ := List.mem_map.mp m2
      have : x1.rank = x2.rank := by simpa [obs_of_mon] using hsid2
      rw [nodup_map_inj _ mons hrk x1 x2 hx1 hx2 this]
  exact hWFout.1 r1 h1 r2 h2 (by rw [hk1, hk2, hobeq])

/-- When nothing is a deletion candidate any more, the sweep deletes
nothing. -/
theorem sweep_noop (acc : FoldAcc)
    (hids : ∀ r ∈ acc.db.services, r.id ∉ acc.old_ids)
    (haddr2 : ∀ r ∈ acc.db.services, r.server_addr ∉ acc.old_addrs)
    (haddr : ∀ s ∈ acc.db.servers, s.addr ∉ acc.old_addrs) :
    (sweep acc).db = acc.db ∧ (sweep acc).stats = acc.stats := by
  have h1 : acc.db.services.filter (fun r => !acc.old_ids.contains r.id)
      = acc.db.services :=
    List.filter_eq_self.mpr (fun r hr => bnot_contains (hids r hr))
  have h2 : acc.db.services.filter (fun r => !acc.old_addrs.contains r.server_addr)
      = acc.db.services :=
    List.filter_eq_self.mpr (fun r hr => bnot_contains (haddr2 r hr))
  have h3 : acc.db.servers.filter (fun s => !acc.old_addrs.contains s.addr)
      = acc.db.servers :=
    List.filter_eq_self.mpr (fun s hs => bnot_contains (haddr s hs))
  constructor
  · show RegDB.mk _ _ _ = acc.db
    rw [h3, h1, h2]
  · show RecStats.mk _ _ _ _ _ = acc.stats
    rw [h1, h2, h3]
    simp [Nat.sub_self]

/-- C1 counterexample.  The migration cleanup at lines 348-353 filters
on `type=ServiceStatus.OSD` only: registering monitor rank 5 at server
`C` creates a new ServiceStatus (created = true), yet the old
monitor-kind record of the same identity at server `B` survives the
registration step — two (MON, 5) records coexist, refuting the claim
for monitor-kind services. -/
theorem C1_mon_duplicate_after_step :
    (register_service ⟨.ok (fun _ => none), fun _ => none⟩
        ⟨[⟨"B", none, none⟩], [⟨0, "B", SKind.mon, 5, "mon.a"⟩], 1⟩
        "C" SKind.mon 5 "mon.b").toOption.map
      (fun o => (o.created, o.db.services.map SS.key)) =
    some (true, [("B", SKind.mon, 5), ("C", SKind.mon, 5)]) := by
  decide

/-- C1 (amended).  Per registration step, the cleanup deletes only
OSD-kind records: whenever a ServiceStatus is newly created, every
surviving OSD-kind record of the same service identity sits on the
registering server (monitor-kind duplicates can survive the individual
step).  The full invariant holds at the end of a reconcile pass: with
a well-formed database and distinct observed OSD ids and monitor
ranks, a (kind, identity) pair has at most one ServiceStatus record
once the stale sweep has run. -/
theorem C1_identity_unique_amended :
    (∀ (env : ResolveEnv) (db : RegDB) (addr : String) (k : SKind) (sid : Nat)
       (name : String) (out : RegOut),
       register_service env db addr k sid name = .ok out → out.created = true →
       ∀ r ∈ out.db.services, r.type = SKind.osd → r.service_id = sid →
         r.server_addr = addr) ∧
    (∀ (env : ResolveEnv) (osds : List OsdEntry) (mons : List MonEntry)
       (db0 : RegDB) (out : RecOut),
       reconcile env osds mons db0 = .ok out → db0.WF →
       (osds.map (fun o => o.osd)).Nodup → (mons.map (fun m => m.rank)).Nodup →
       ∀ r1 ∈ out.db.services, ∀ r2 ∈ out.db.services,
         r1.type = r2.type → r1.service_id = r2.service_id → r1 = r2) := by
  constructor
  · intro env db addr k sid name out hreg hcr r hr ht hsid
    rcases register_ok_cases env db addr k sid name out hreg with
      ⟨hf, _⟩ | ⟨_, _, _, hsv, _, _⟩
    · rw [hcr] at hf
      exact Bool.noConfusion hf
    · rw [hsv] at hr
      have hns := (List.mem_filter.mp hr).2
      simp only [Bool.not_eq_true'] at hns
      unfold stale_pred at hns
      simp only [ht, hsid, beq_self_eq_true, Bool.and_true, bne,
        Bool.not_eq_false, beq_iff_eq] at hns
      simpa using hns
  · intro env osds mons db0 out h hWF hid hrk
    exact reconcile_at_most_one env osds mons db0 out h hWF hid hrk

/-- Witness for C1 (amended): after newly registering OSD 5 at server
`C` over a database that held OSD 5 at server `B`, the only surviving
OSD-5 record sits at `C`. -/
theorem C1_identity_unique_amended_witness :
    SS.server_addr ⟨1, "C", SKind.osd, 5, "osd.5"⟩ = "C" := by
  have h : register_service ⟨.ok (fun _ => none), fun _ => none⟩
      ⟨[⟨"B", none, none⟩], [⟨0, "B", SKind.osd, 5, "osd.5"⟩], 1⟩ "C" SKind.osd 5 "osd.5"
      = .ok ⟨⟨[⟨"B", none, none⟩, ⟨"C", some "localhost", some "localhost"⟩],
             [⟨1, "C", SKind.osd, 5, "osd.5"⟩], 2⟩,
             ⟨1, "C", SKind.osd, 5, "osd.5"⟩, true, true, 1,
             ⟨"C", some "localhost", some "localhost"⟩⟩ := by decide
  exact C1_identity_unique_amended.1 _ _ "C" SKind.osd 5 "osd.5" _ h rfl
    ⟨1, "C", SKind.osd, 5, "osd.5"⟩ (by decide) rfl rfl

/-- C4.  OSD migration: if OSD identity 5 is observed at one address
in pass 1 and at a different address in pass 2 (starting from an empty
registry), then after pass 2 exactly one ServiceStatus exists for OSD
identity 5, it is attached to the server at the new address, and the
server at the old address has been deleted. -/
theorem C4_osd_migration (env1 env2 : ResolveEnv) (e1 e2 : OsdEntry)
    (h5a : e1.osd = 5) (h5b : e2.osd = 5)
    (hne : caller_short_addr e1.public_addr ≠ caller_short_addr e2.public_addr)
    (o1 o2 : RecOut)
    (h1 : reconcile env1 [e1] [] ⟨[], [], 0⟩ = .ok o1)
    (h2 : reconcile env2 [e2] [] o1.db = .ok o2) :
    (o2.db.services.filter
        (fun r => r.type == SKind.osd && r.service_id == 5)).length = 1 ∧
    (∀ r ∈ o2.db.services, r.type = SKind.osd ∧ r.service_id = 5 ∧
       r.server_addr = caller_short_addr e2.public_addr) ∧
    caller_short_addr e1.public_addr ∉ o2.db.servers.map (fun s => s.addr) := by
  have hWF0 : (RegDB.mk [] [] 0).WF := by
    refine ⟨?_, List.nodup_nil, ?_, List.nodup_nil⟩
    · intro r hr
      cases hr
    · intro r hr
      cases hr
  obtain ⟨hWF1, hkeys1, haddrs1⟩ := reconcile_survivors env1 [e1] [] _ o1 h1 hWF0
  obtain ⟨hWF2, hkeys2, haddrs2⟩ := reconcile_survivors env2 [e2] [] _ o2 h2 hWF1
  have hobs2 := reconcile_observed env2 [e2] [] o1.db o2 h2 hWF1
    (by simp) (by simp) (by intro m hm; cases hm)
  obtain ⟨⟨r0, hr0, hr0k⟩, _⟩ := hobs2 (obs_of_osd e2) (by simp)
  have hcomp : ∀ r ∈ o2.db.services, r.type = SKind.osd ∧ r.service_id = 5 ∧
      r.server_addr = caller_short_addr e2.public_addr := by
    intro r hr
    obtain ⟨ob, hob, hk⟩ := hkeys2 r hr
    have : ob = obs_of_osd e2 := by
      simp only [List.map_cons, List.map_nil, List.nil_append,
        List.mem_append, List.mem_cons, List.not_mem_nil, or_false] at hob
      tauto
    subst this
    refine ⟨?_, ?_, ?_⟩
    · have := congrArg (fun p => p.2.1) hk
      simpa [SS.key, Obs.key, obs_of_osd] using this
    · have := congrArg (fun p => p.2.2) hk
      simpa [SS.key, Obs.key, obs_of_osd, h5b] using this
    · have := congrArg (fun p => p.1) hk
      simpa [SS.key, Obs.key, obs_of_osd, Obs.addr] using this
  refine ⟨?_, hcomp, ?_⟩
  · have hall : ∀ x ∈ o2.db.services, x = r0 := by
      intro x hx
      obtain ⟨xt, xs, xa⟩ := hcomp x hx
      obtain ⟨rt, rs, ra⟩ := hcomp r0 hr0
      exact hWF2.1 x hx r0 hr0 (by simp [SS.key, xt, xs, xa, rt, rs, ra])
    have hnodup : o2.db.services.Nodup := hWF2.2.1.of_map
    have heq : o2.db.services = [r0] := list_eq_singleton_of_unique hnodup r0 hr0 hall
    rw [heq]
    obtain ⟨rt, rs, _⟩ := hcomp r0 hr0
    simp [rt, rs]
  · intro hmem
    obtain ⟨ob, hob, hk⟩ := haddrs2 _ hmem
    have : ob = obs_of_osd e2 := by
      simp only [List.map_cons, List.map_nil, List.nil_append,
        List.mem_append, List.mem_cons, List.not_mem_nil, or_false] at hob
      tauto
    subst this
    exact hne (by simpa [Obs.addr, obs_of_osd] using hk)

/-- Witness for C4: OSD 5 moves from 10.0.0.1 to 10.0.0.2 across two
passes; afterwards one OSD-5 record remains, at 10.0.0.2, and the
10.0.0.1 server row is gone. -/
theorem C4_osd_migration_witness :
    ((reconcile ⟨.ok (fun _ => none), fun _ => none⟩
        [⟨5, "u", true, true, 0, "10.0.0.1:6800/0", "", "", ""⟩] [] ⟨[], [], 0⟩).toOption.bind
      (fun o1 => (reconcile ⟨.ok (fun _ => none), fun _ => none⟩
          [⟨5, "u", true, true, 0, "10.0.0.2:6800/0", "", "", ""⟩] [] o1.db).toOption.map
        (fun o2 =>
          ((o2.db.services.filter
              (fun r => r.type == SKind.osd && r.service_id == 5)).length,
           decide ("10.0.0.1" ∈ o2.db.servers.map (fun s => s.addr))))))
    = some (1, false) := by
  rcases hr1 : reconcile ⟨.ok (fun _ => none), fun _ => none⟩
      [⟨5, "u", true, true, 0, "10.0.0.1:6800/0", "", "", ""⟩] [] ⟨[], [], 0⟩ with e | o1
  · exfalso
    have hsome : (reconcile ⟨.ok (fun _ => none), fun _ => none⟩
        [⟨5, "u", true, true, 0, "10.0.0.1:6800/0", "", "", ""⟩] []
        ⟨[], [], 0⟩).toOption.isSome = true := by decide
    rw [hr1] at hsome
    exact Bool.noConfusion hsome
  · have hdb1 : o1.db
        = ⟨[⟨"10.0.0.1", some "localhost", some "localhost"⟩],
           [⟨0, "10.0.0.1", SKind.osd, 5, "osd.5"⟩], 1⟩ := by
      have hmap : (reconcile ⟨.ok (fun _ => none), fun _ => none⟩
          [⟨5, "u", true, true, 0, "10.0.0.1:6800/0", "", "", ""⟩] []
          ⟨[], [], 0⟩).toOption.map (fun o => o.db)
          = some ⟨[⟨"10.0.0.1", some "localhost", some "localhost"⟩],
                  [⟨0, "10.0.0.1", SKind.osd, 5, "osd.5"⟩], 1⟩ := by decide
      rw [hr1] at hmap
      simpa [Except.toOption] using hmap
    rcases hr2 : reconcile ⟨.ok (fun _ => none), fun _ => none⟩
        [⟨5, "u", true, true, 0, "10.0.0.2:6800/0", "", "", ""⟩] [] o1.db with e | o2
    · exfalso
      rw [hdb1] at hr2
      have hsome : (reconcile ⟨.ok (fun _ => none), fun _ => none⟩
          [⟨5, "u", true, true, 0, "10.0.0.2:6800/0", "", "", ""⟩] []
          ⟨[⟨"10.0.0.1", some "localhost", some "localhost"⟩],
           [⟨0, "10.0.0.1", SKind.osd, 5, "osd.5"⟩], 1⟩).toOption.isSome = true := by
        decide
      rw [hr2] at hsome
      exact Bool.noConfusion hsome
    · have hconc := C4_osd_migration ⟨.ok (fun _ => none), fun _ => none⟩
        ⟨.ok (fun _ => none), fun _ => none⟩ _ _ rfl rfl (by decide) o1 o2 hr1 hr2
      rw [except_toOption_ok, option_bind_some]
      rw [hr2, except_toOption_ok, option_map_some]
      have hlen := hconc.1
      have hnot := hconc.2.2
      rw [hlen]
      have hnot2 : ("10.0.0.1" : String) ∉ o2.db.servers.map (fun s => s.addr) := by
        have hns : caller_short_addr "10.0.0.1:6800/0" = "10.0.0.1" := by decide
        rw [← hns]
        exact hnot
      have hdec : decide ("10.0.0.1" ∈ o2.db.servers.map (fun s => s.addr)) = false := by
        rw [decide_eq_false_iff_not]
        exact hnot2
      rw [hdec]

/-- C5 counterexample.  With OSD id 5 at 10.0.0.1 and monitor rank 5
at 10.0.0.9 observed (the same observed sets in both runs, starting
from an empty registry), the second reconcile run performs one
additional ServiceStatus create and reaches a different state: the
monitor registration of run 1 deleted the freshly created OSD record
(the migration cleanup always filters on OSD kind, lines 348-353), so
run 2 recreates it.  Reconciliation is not idempotent as claimed. -/
theorem C5_reconcile_not_idempotent :
    (reconcile ⟨.ok (fun _ => none), fun _ => none⟩
        [⟨5, "u", true, true, 0, "10.0.0.1:6800/0", "", "", ""⟩]
        [⟨5, "m0", "10.0.0.9:6789/0"⟩] ⟨[], [], 0⟩).toOption.map
      (fun o1 => (reconcile ⟨.ok (fun _ => none), fun _ => none⟩
          [⟨5, "u", true, true, 0, "10.0.0.1:6800/0", "", "", ""⟩]
          [⟨5, "m0", "10.0.0.9:6789/0"⟩] o1.db).toOption.map
        (fun o2 => (o2.stats.ss_creates, decide (o2.db = o1.db))))
    = some (some (1, false)) := by
  decide

/-- C5 (amended).  Registry reconciliation is idempotent provided no
observed monitor rank collides with an observed OSD id (and the
observed OSD ids and monitor ranks are themselves distinct, and the
database satisfies the schema constraints): a second reconcile run
over the same observed sets performs no Server or ServiceStatus
creates and no deletes of any kind, and leaves the durable state
exactly as the first run left it. -/
theorem C5_reconcile_idempotent_amended (env1 env2 : ResolveEnv)
    (osds : List OsdEntry) (mons : List MonEntry) (db0 : RegDB) (out1 : RecOut)
    (hWF : db0.WF)
    (hid : (osds.map (fun o => o.osd)).Nodup)
    (hrk : (mons.map (fun m => m.rank)).Nodup)
    (hdisj : ∀ m ∈ mons, ∀ o ∈ osds, m.rank ≠ o.osd)
    (h1 : reconcile env1 osds mons db0 = .ok out1) :
    ∃ out2, reconcile env2 osds mons out1.db = .ok out2 ∧
      out2.db = out1.db ∧ out2.stats = ⟨0, 0, 0, 0, 0⟩ := by
  obtain ⟨hWF1, hkeys1, haddrs1⟩ := reconcile_survivors env1 osds mons db0 out1 h1 hWF
  have hobs := reconcile_observed env1 osds mons db0 out1 h1 hWF hid hrk hdisj
  obtain ⟨acc', hfold, hdb', hstats', h4, h5⟩ :=
    reg_fold_found_all env2 (osds.map obs_of_osd ++ mons.map obs_of_mon)
      ⟨out1.db, out1.db.services.map (fun r => r.id),
       out1.db.servers.map (fun s => s.addr), fun _ => none, ⟨0, 0, 0, 0, 0⟩⟩
      hWF1.1 hWF1.2.1 hWF1.2.2.2 hobs
  have hrec2 : reconcile env2 osds mons out1.db = .ok (sweep acc') := by
    simp only [reconcile]
    rw [hfold]
  have hids : ∀ r ∈ acc'.db.services, r.id ∉ acc'.old_ids := by
    intro r hr
    rw [hdb'] at hr
    exact h4 r hr (hkeys1 r hr)
  have haddr2 : ∀ r ∈ acc'.db.services, r.server_addr ∉ acc'.old_addrs := by
    intro r hr
    rw [hdb'] at hr
    obtain ⟨ob, hob, hk⟩ := hkeys1 r hr
    refine h5 r.server_addr ⟨ob, hob, ?_⟩
    have := congrArg (fun p => p.1) hk
    simpa [SS.key, Obs.key] using this
  have haddr : ∀ s ∈ acc'.db.servers, s.addr ∉ acc'.old_addrs := by
    intro s hs
    rw [hdb'] at hs
    obtain ⟨ob, hob, hk⟩ := haddrs1 s.addr (List.mem_map_of_mem _ hs)
    exact h5 s.addr ⟨ob, hob, hk⟩
  obtain ⟨hswdb, hswstats⟩ := sweep_noop acc' hids haddr2 haddr
  refine ⟨sweep acc', hrec2, ?_, ?_⟩
  · rw [hswdb, hdb']
  · rw [hswstats, hstats']

/-- Witness for C5 (amended): OSD id 5 and monitor rank 6 (no
collision); the second run returns the first run's state unchanged
with all-zero creation/deletion statistics. -/
theorem C5_reconcile_idempotent_amended_witness :
    (reconcile ⟨.ok (fun _ => none), fun _ => none⟩
        [⟨5, "u", true, true, 0, "10.0.0.1:6800/0", "", "", ""⟩]
        [⟨6, "m0", "10.0.0.9:6789/0"⟩] ⟨[], [], 0⟩).toOption.map
      (fun o1 => (reconcile ⟨.ok (fun _ => none), fun _ => none⟩
          [⟨5, "u", true, true, 0, "10.0.0.1:6800/0", "", "", ""⟩]
          [⟨6, "m0", "10.0.0.9:6789/0"⟩] o1.db).toOption.map
        (fun o2 => (decide (o2.db = o1.db), o2.stats)))
    = some (some (true, ⟨0, 0, 0, 0, 0⟩)) := by
  rcases hr1 : reconcile ⟨.ok (fun _ => none), fun _ => none⟩
      [⟨5, "u", true, true, 0, "10.0.0.1:6800/0", "", "", ""⟩]
      [⟨6, "m0", "10.0.0.9:6789/0"⟩] ⟨[], [], 0⟩ with e | o1
  · exfalso
    have hsome : (reconcile ⟨.ok (fun _ => none), fun _ => none⟩
        [⟨5, "u", true, true, 0, "10.0.0.1:6800/0", "", "", ""⟩]
        [⟨6, "m0", "10.0.0.9:6789/0"⟩] ⟨[], [], 0⟩).toOption.isSome = true := by decide
    rw [hr1] at hsome
    exact Bool.noConfusion hsome
  · obtain ⟨out2, hrec2, hdb, hstats⟩ := C5_reconcile_idempotent_amended
      ⟨.ok (fun _ => none), fun _ => none⟩ ⟨.ok (fun _ => none), fun _ => none⟩
      [⟨5, "u", true, true, 0, "10.0.0.1:6800/0", "", "", ""⟩]
      [⟨6, "m0", "10.0.0.9:6789/0"⟩] ⟨[], [], 0⟩ o1
      (by refine ⟨?_, List.nodup_nil, ?_, List.nodup_nil⟩ <;> intro r hr <;> cases hr)
      (by decide) (by decide) (by decide) hr1
    rw [except_toOption_ok, option_map_some]
    rw [hrec2, except_toOption_ok, option_map_some]
    rw [hdb, hstats]
    simp

/-- C2 counterexample.  A transport failure on the `df` fetch aborts
the pass inside `_populate_pools` (alphabetically after counters,
health and osds_and_pgs have already assigned their snapshot fields),
and the bookkeeping save at line 685 persists the partially updated
in-memory cluster: the persisted `health` field carries the new value
instead of its pre-pass value, refuting "snapshot fields are left
untouched".  The error flag/message, attempt timestamp and client
flag behave as claimed. -/
theorem C2_partial_snapshot_persisted_on_failure :
    (process_cluster
        { status := .ok ⟨⟨0, 0, 0⟩, [], [], []⟩,
          space := .error .transport,
          health := .ok ⟨"HEALTH_OK", "det", "sum"⟩,
          osd_dump := .ok ⟨[], []⟩,
          mon_status := .ok [],
          pg_pools := .ok [],
          pools_ls := .ok [],
          pg_stats := .ok [],
          osd_tree := .ok ⟨[]⟩,
          crush_host_type := "host",
          crush_osd_type := "osd",
          net := ⟨fun _ _ => false, fun _ _ => false⟩,
          rdns := fun _ => none }
        42
        { reg := ⟨[], [], 0⟩, pools := [], space := none,
          health := some ⟨"HEALTH_WARN", "old", "old"⟩, osds := none, pgs := none,
          osds_by_pg_state := none, counters := none, update_time := none,
          attempt_time := none, error_isclient := false, error_msg := none }).health
      = some ⟨"HEALTH_OK", "det", "sum"⟩ ∧
    (some ⟨"HEALTH_OK", "det", "sum"⟩ : Option HealthDoc)
      ≠ some ⟨"HEALTH_WARN", "old", "old"⟩ ∧
    (process_cluster
        { status := .ok ⟨⟨0, 0, 0⟩, [], [], []⟩,
          space := .error .transport,
          health := .ok ⟨"HEALTH_OK", "det", "sum"⟩,
          osd_dump := .ok ⟨[], []⟩,
          mon_status := .ok [],
          pg_pools := .ok [],
          pools_ls := .ok [],
          pg_stats := .ok [],
          osd_tree := .ok ⟨[]⟩,
          crush_host_type := "host",
          crush_osd_type := "osd",
          net := ⟨fun _ _ => false, fun _ _ => false⟩,
          rdns := fun _ => none }
        42
        { reg := ⟨[], [], 0⟩, pools := [], space := none,
          health := some ⟨"HEALTH_WARN", "old", "old"⟩, osds := none, pgs := none,
          osds_by_pg_state := none, counters := none, update_time := none,
          attempt_time := none, error_isclient := false, error_msg := none }).error_isclient
      = true ∧
    (process_cluster
        { status := .ok ⟨⟨0, 0, 0⟩, [], [], []⟩,
          space := .error .transport,
          health := .ok ⟨"HEALTH_OK", "det", "sum"⟩,
          osd_dump := .ok ⟨[], []⟩,
          mon_status := .ok [],
          pg_pools := .ok [],
          pools_ls := .ok [],
          pg_stats := .ok [],
          osd_tree := .ok ⟨[]⟩,
          crush_host_type := "host",
          crush_osd_type := "osd",
          net := ⟨fun _ _ => false, fun _ _ => false⟩,
          rdns := fun _ => none }
        42
        { reg := ⟨[], [], 0⟩, pools := [], space := none,
          health := some ⟨"HEALTH_WARN", "old", "old"⟩, osds := none, pgs := none,
          osds_by_pg_state := none, counters := none, update_time := none,
          attempt_time := none, error_isclient := false, error_msg := none }).space
      = none := by
  refine ⟨by decide, by decide, by decide, by decide⟩

/-- C2 (amended).  When a cluster's pass fails on its very first
telemetry fetch (`get_mon_status`), all snapshot fields keep their
pre-pass values; on any failure the error message and attempt
timestamp are recorded, the client/transport flag is set exactly when
the failure came from the REST transport, and the success timestamp
is left alone.  (Fields populated by steps that completed before a
later failure are, however, persisted by the same bookkeeping save —
see the counterexample.)  Clusters are processed independently: the
command is a per-cluster map, so one cluster's failure cannot affect
another's processing. -/
theorem C2_first_fetch_failure_amended (env : TelemetryEnv) (now : Nat)
    (c : ClusterState) (e : Err) (hm : env.mon_status = .error e) :
    (process_cluster env now c).space = c.space ∧
    (process_cluster env now c).health = c.health ∧
    (process_cluster env now c).pools = c.pools ∧
    (process_cluster env now c).osds = c.osds ∧
    (process_cluster env now c).pgs = c.pgs ∧
    (process_cluster env now c).osds_by_pg_state = c.osds_by_pg_state ∧
    (process_cluster env now c).counters = c.counters ∧
    (process_cluster env now c).reg = c.reg ∧
    (process_cluster env now c).error_isclient = decide (e = Err.transport) ∧
    (process_cluster env now c).error_msg = some "traceback" ∧
    (process_cluster env now c).attempt_time = some now ∧
    (process_cluster env now c).update_time = c.update_time := by
  simp [process_cluster, refresh_impl, refresh_servers_step, hm]

/-- Witness for C2 (amended): a non-transport failure on the first
fetch leaves every snapshot field at its pre-pass value and sets the
bookkeeping fields, with the client flag off. -/
theorem C2_first_fetch_failure_amended_witness :
    (process_cluster
        { status := .ok ⟨⟨0, 0, 0⟩, [], [], []⟩,
          space := .ok ⟨⟨1, 2, 3⟩, []⟩,
          health := .ok ⟨"HEALTH_OK", "det", "sum"⟩,
          osd_dump := .ok ⟨[], []⟩,
          mon_status := .error .malformed,
          pg_pools := .ok [],
          pools_ls := .ok [],
          pg_stats := .ok [],
          osd_tree := .ok ⟨[]⟩,
          crush_host_type := "host",
          crush_osd_type := "osd",
          net := ⟨fun _ _ => false, fun _ _ => false⟩,
          rdns := fun _ => none }
        99
        { reg := ⟨[], [], 0⟩, pools := [], space := none,
          health := some ⟨"HEALTH_WARN", "old", "old"⟩, osds := none, pgs := none,
          osds_by_pg_state := none, counters := none, update_time := some 7,
          attempt_time := some 8, error_isclient := true, error_msg := none }).health
      = some ⟨"HEALTH_WARN", "old", "old"⟩ ∧
    (process_cluster
        { status := .ok ⟨⟨0, 0, 0⟩, [], [], []⟩,
          space := .ok ⟨⟨1, 2, 3⟩, []⟩,
          health := .ok ⟨"HEALTH_OK", "det", "sum"⟩,
          osd_dump := .ok ⟨[], []⟩,
          mon_status := .error .malformed,
          pg_pools := .ok [],
          pools_ls := .ok [],
          pg_stats := .ok [],
          osd_tree := .ok ⟨[]⟩,
          crush_host_type := "host",
          crush_osd_type := "osd",
          net := ⟨fun _ _ => false, fun _ _ => false⟩,
          rdns := fun _ => none }
        99
        { reg := ⟨[], [], 0⟩, pools := [], space := none,
          health := some ⟨"HEALTH_WARN", "old", "old"⟩, osds := none, pgs := none,
          osds_by_pg_state := none, counters := none, update_time := some 7,
          attempt_time := some 8, error_isclient := true, error_msg := none }).error_isclient
      = false := by
  constructor
  · exact (C2_first_fetch_failure_amended _ 99 _ Err.malformed rfl).2.1
  · exact (C2_first_fetch_failure_amended _ 99 _ Err.malformed rfl).2.2.2.2.2.2.2.2.1

/-- C10.  One refresh pass is the spec's sequential pipeline up to the
execution order of its independent populate steps: the implemented
refresh (registry reconciliation first, then the `_populate_*` methods
in `dir()`'s alphabetical order — counters, health, osds+pgs, pools,
space) succeeds exactly when the spec-ordered composition of the same
embedded steps (registry, space, health, pools, osds+pgs, counters)
succeeds, and then produces the same final cluster state; the steps
write disjoint snapshot fields and read only the telemetry environment
and the registry output, so the two compositions agree on every
successful pass. -/
theorem C10_refresh_order_equivalent (env : TelemetryEnv) (c : ClusterState)
    (r : ClusterState) :
    refresh_impl env c = .ok r ↔ refresh_spec_order env c = .ok r := by
  rcases hs : refresh_servers_step env c with ⟨e, s⟩ | ⟨c1, om⟩ <;>
    rcases hpp : env.pg_pools with _ | pp <;>
    rcases hod : env.osd_dump with _ | od <;>
    rcases hst : env.status with _ | st <;>
    rcases hhd : env.health with _ | hd <;>
    rcases hpg : env.pg_stats with _ | pgsv <;>
    rcases hpl : env.pools_ls with _ | plsv <;>
    rcases hsp : env.space with _ | sp <;>
    simp only [refresh_impl, refresh_spec_order, populate_counters, populate_health,
      populate_osds_and_pgs, populate_pools, populate_space, List.mapM, hs, hpp, hod,
      hst, hhd, hpg, hpl, hsp] <;>
    first
    | (simp; done)
    | rfl
    | (rcases hbi : build_pg_indices (pools_by_id_of plsv) (pgsv.map fixup_pg)
          with _ | idx <;>
       simp only [hbi] <;>
       first
       | (simp; done)
       | rfl
       | (rcases hfx : List.mapM.loop (fixup_osd om idx) od.osds [] with _ | osds_out <;>
          simp only [hfx] <;>
          simp))

end CephRefresh
